import Mathlib

/-!
Verification development for the sip_gateway voice-telephony gateway.

Each section shallowly embeds one component of the C++ source
(`src/src/...`) as executable Lean definitions and proves the spec-level
properties about them.  Machine integers are modelled as `Nat`/`Int` with
explicit wrapping where the source relies on fixed-width behaviour, C++
`float` samples are modelled as exact rationals, and external
collaborators (the SIP library, the VAD inference model, the HTTP server)
are parameters of the embedding.
-/

set_option maxRecDepth 10000

/-! ## Conversation state machine (`src/src/sip/call.cpp`, `SipCall::set_state`) -/

/-- `SipCall::CallState` from `include/sip_gateway/sip/call.hpp`. -/
inductive CallState
  | WaitForUser
  | SpeculativeGenerate
  | CommitGenerate
  | Finished
deriving DecidableEq, Repr

/-- `SipCall::set_state` (call.cpp lines 1053-1060): the new value of
`state_` after a `set_state(state)` call on a controller whose current
state is `cur`.  The source returns early when the current state is
`Finished` and the requested state is not, and when the state is
unchanged. -/
def set_state (cur next : CallState) : CallState :=
  if cur = CallState.Finished ∧ next ≠ CallState.Finished then cur
  else if cur = next then cur
  else next

/-! ## Frame port queue (`src/src/audio/port.cpp`, `AudioMediaPort::onFrameReceived`) -/

/-- `AudioMediaPort::kMaxQueueSize` from `include/sip_gateway/audio/port.hpp`. -/
def kMaxQueueSize : Nat := 64

/-- A `FrameTask` queue entry: the pcm16 payload copied out of the media
frame (the captured handler is irrelevant to the queue discipline). -/
structure FrameTask where
  data : List Int
deriving DecidableEq, Repr

/-- The queue update performed by `AudioMediaPort::onFrameReceived`
(port.cpp lines 75-81): under the queue mutex, when the queue is at
capacity the oldest entry is popped from the front, then the new task is
appended at the back. -/
def onFrameReceived (queue : List FrameTask) (task : FrameTask) : List FrameTask :=
  if kMaxQueueSize ≤ queue.length then queue.drop 1 ++ [task]
  else queue ++ [task]

/-- Operations touching the frame queue: a received frame, or the worker
thread draining one entry (`AudioMediaPort::worker_loop`). -/
inductive PortOp
  | receive (task : FrameTask)
  | drain
deriving DecidableEq, Repr

/-- One queue transition of the frame port. -/
def portStep (queue : List FrameTask) : PortOp → List FrameTask
  | PortOp.receive task => onFrameReceived queue task
  | PortOp.drain => queue.drop 1

/-- The frame queue after a sequence of operations, starting from the
empty queue the port is constructed with. -/
def runPort (ops : List PortOp) : List FrameTask :=
  ops.foldl portStep []

/-! ## Smart player (`src/src/audio/player.cpp`) -/

/-- `SmartPlayer::AudioFile`: a queued file and its `discard_after` flag.
File paths are identified by a number. -/
structure AudioFile where
  filename : Nat
  discard_after : Bool
deriving DecidableEq, Repr

/-- The observable state of a `SmartPlayer`.  `current_player` models
whether the `pj::AudioMediaPlayer` object exists, `removed` the files
deleted via `std::filesystem::remove`, and `on_stop_count` the number of
invocations of the `on_stop_callback_`. -/
structure PlayerState where
  queue : List AudioFile
  active : Bool
  tearing_down : Bool
  current_audio : Option AudioFile
  current_player : Bool
  removed : List Nat
  on_stop_count : Nat
deriving DecidableEq, Repr

/-- The state of a freshly constructed `SmartPlayer`. -/
def initPlayer : PlayerState :=
  { queue := [], active := false, tearing_down := false,
    current_audio := none, current_player := false,
    removed := [], on_stop_count := 0 }

/-- `SmartPlayer::destroy_player`: stop transmission and drop the player
object. -/
def destroy_player (s : PlayerState) : PlayerState :=
  { s with current_player := false }

/-- `SmartPlayer::discard_current`: delete the just-played file when it
is transient and clear `current_audio_`. -/
def discard_current (s : PlayerState) : PlayerState :=
  match s.current_audio with
  | none => s
  | some f =>
      { s with
        removed := if f.discard_after then s.removed ++ [f.filename] else s.removed,
        current_audio := none }

/-- `SmartPlayer::play_next` (player.cpp lines 71-104).  The pjsua file
player construction is assumed to succeed (the `pj::Error` branch retries
with the rest of the queue and is irrelevant to the claims checked
here). -/
def play_next (s : PlayerState) : PlayerState :=
  match s.queue with
  | [] =>
      { s with active := false, on_stop_count := s.on_stop_count + 1 }
  | f :: rest =>
      let s := { s with current_audio := some f, queue := rest }
      if s.tearing_down then s
      else { s with current_player := true, active := true }

/-- `SmartPlayer::enqueue`. -/
def player_enqueue (s : PlayerState) (f : AudioFile) : PlayerState :=
  { s with queue := s.queue ++ [f] }

/-- `SmartPlayer::play`: start playback when idle and the queue is
non-empty. -/
def player_play (s : PlayerState) : PlayerState :=
  if s.current_audio = none ∧ s.queue ≠ [] then play_next s else s

/-- `SmartPlayer::interrupt` (player.cpp lines 51-65). -/
def player_interrupt (s : PlayerState) : PlayerState :=
  let s := { s with tearing_down := true }
  let s := destroy_player s
  let s := discard_current s
  let s := { s with
    removed := s.removed ++
      (s.queue.filter fun (f : AudioFile) => f.discard_after).map
        fun (f : AudioFile) => f.filename,
    queue := [] }
  { s with tearing_down := false, active := false }

/-- `SmartPlayer::handle_eof` (player.cpp lines 106-114): destroy the
player, discard the just-played file, then either continue with the next
queued file or invoke `on_stop_callback_`.  Note that the empty-queue
branch does not touch `active_`. -/
def handle_eof (s : PlayerState) : PlayerState :=
  let s := destroy_player s
  let s := discard_current s
  if s.queue ≠ [] ∧ ¬s.tearing_down then play_next s
  else if ¬s.tearing_down then { s with on_stop_count := s.on_stop_count + 1 }
  else s

/-- `SmartPlayer::is_active`. -/
def is_active (s : PlayerState) : Bool :=
  s.active

/-- External operations on a `SmartPlayer`. -/
inductive PlayerOp
  | enqueue (f : AudioFile)
  | play
  | interrupt
  | eof
deriving DecidableEq, Repr

/-- One `SmartPlayer` operation. -/
def playerStep (s : PlayerState) : PlayerOp → PlayerState
  | PlayerOp.enqueue f => player_enqueue s f
  | PlayerOp.play => player_play s
  | PlayerOp.interrupt => player_interrupt s
  | PlayerOp.eof => handle_eof s

/-- The player state after a sequence of operations on a fresh player. -/
def runPlayer (ops : List PlayerOp) : PlayerState :=
  ops.foldl playerStep initPlayer

/-! ## Theorems: C2 (monotone finish) -/

theorem set_state_finished (next : CallState) :
    set_state CallState.Finished next = CallState.Finished := by
  cases next <;> simp [set_state]

/-- C2: Monotone finish.  For every Conversation Controller and every
sequence of `set_state` calls, once the conversation state is `Finished`
no later call changes it: folding any further `set_state` requests over a
`Finished` state leaves it `Finished`. -/
theorem finished_is_terminal (s0 : CallState) (pre post : List CallState)
    (h : List.foldl set_state s0 pre = CallState.Finished) :
    List.foldl set_state s0 (pre ++ post) = CallState.Finished := by
  rw [List.foldl_append, h]
  induction post with
  | nil => rfl
  | cons x xs ih => rw [List.foldl_cons, set_state_finished]; exact ih

/-- Witness for C2 at a concrete call sequence. -/
theorem finished_is_terminal_witness :
    List.foldl set_state CallState.WaitForUser
      ([CallState.Finished] ++ [CallState.WaitForUser, CallState.CommitGenerate]) =
      CallState.Finished :=
  finished_is_terminal CallState.WaitForUser [CallState.Finished]
    [CallState.WaitForUser, CallState.CommitGenerate] (by decide)

/-! ## Theorems: C8 (frame queue bound with drop-oldest) -/

theorem onFrameReceived_length_le (queue : List FrameTask) (task : FrameTask)
    (h : queue.length ≤ kMaxQueueSize) :
    (onFrameReceived queue task).length ≤ kMaxQueueSize := by
  unfold onFrameReceived
  simp only [kMaxQueueSize] at h ⊢
  split
  · simp only [List.length_append, List.length_drop, List.length_cons, List.length_nil]
    omega
  · simp only [List.length_append, List.length_cons, List.length_nil]
    omega

theorem runPort_length_le (ops : List PortOp) :
    (runPort ops).length ≤ kMaxQueueSize := by
  suffices h : ∀ q : List FrameTask, q.length ≤ kMaxQueueSize →
      (ops.foldl portStep q).length ≤ kMaxQueueSize by
    exact h [] (by simp [kMaxQueueSize])
  induction ops with
  | nil => intro q hq; exact hq
  | cons op rest ih =>
      intro q hq
      cases op with
      | receive task => exact ih _ (onFrameReceived_length_le q task hq)
      | drain =>
          refine ih _ ?_
          simp only [portStep, List.length_drop, kMaxQueueSize] at hq ⊢
          omega

/-- C8: Frame queue bound with drop-oldest.  Starting from the empty
queue, no sequence of received frames and worker drains ever makes
`frame_queue_` hold more than `kMaxQueueSize = 64` entries, and a frame
arriving while the queue holds 64 entries removes the oldest entry and
appends the new frame at the back. -/
theorem frame_queue_bounded :
    (∀ ops : List PortOp, (runPort ops).length ≤ kMaxQueueSize) ∧
    (∀ (queue : List FrameTask) (task : FrameTask),
      queue.length = kMaxQueueSize →
      onFrameReceived queue task = queue.drop 1 ++ [task] ∧
      (onFrameReceived queue task).length = kMaxQueueSize) := by
  refine ⟨runPort_length_le, ?_⟩
  intro queue task h
  have hcond : kMaxQueueSize ≤ queue.length := le_of_eq h.symm
  constructor
  · simp [onFrameReceived, hcond]
  · have h64 : queue.length = 64 := h
    simp [onFrameReceived, kMaxQueueSize, List.length_drop, h64]

/-- Witness for C8 at a queue of 64 concrete entries. -/
theorem frame_queue_bounded_witness :
    onFrameReceived (List.replicate 64 ⟨[0]⟩) ⟨[1]⟩ =
      (List.replicate 64 (⟨[0]⟩ : FrameTask)).drop 1 ++ [⟨[1]⟩] ∧
    (runPort [PortOp.receive ⟨[7]⟩]).length ≤ kMaxQueueSize :=
  ⟨(frame_queue_bounded.2 (List.replicate 64 ⟨[0]⟩) ⟨[1]⟩ (by simp [kMaxQueueSize])).1,
   frame_queue_bounded.1 [PortOp.receive ⟨[7]⟩]⟩

/-! ## Theorems: C5 (player activity indicator) -/

/-- C5 (code bug): after `enqueue`, `play`, and the `handle_eof` that
completes playback of the only queued file, the queue is empty, no
player object exists and no file is current — yet `active_` is still
`true`, so `is_active()` keeps returning `true` although nothing is
playing.  The empty-queue branch of `handle_eof` invokes the `on_stop`
callback without clearing `active_`, unlike the empty-queue branch of
`play_next` which clears it before invoking the same callback. -/
theorem handle_eof_leaves_active :
    is_active (runPlayer [PlayerOp.enqueue ⟨0, true⟩, PlayerOp.play,
      PlayerOp.eof]) = true ∧
    (runPlayer [PlayerOp.enqueue ⟨0, true⟩, PlayerOp.play,
      PlayerOp.eof]).queue = [] ∧
    (runPlayer [PlayerOp.enqueue ⟨0, true⟩, PlayerOp.play,
      PlayerOp.eof]).current_audio = none ∧
    (runPlayer [PlayerOp.enqueue ⟨0, true⟩, PlayerOp.play,
      PlayerOp.eof]).current_player = false ∧
    (runPlayer [PlayerOp.enqueue ⟨0, true⟩, PlayerOp.play,
      PlayerOp.eof]).on_stop_count = 1 := by
  decide

/-! ## Control plane (`src/src/sip/app.cpp`, `SipApp::handle_call_request`) -/

/-- The parsed request body of `POST /call`: `to_uri` is required,
`env_info` (an opaque JSON object, here its serialized text) and
`communication_id` are optional. -/
structure CallRequestBody where
  to_uri : Option String
  env_info : Option String
  communication_id : Option String
deriving DecidableEq, Repr

/-- A REST response: HTTP status plus the `message` field of the JSON
body. -/
structure RestResponse where
  status : Nat
  message : String
deriving DecidableEq, Repr

/-- Externally visible effects of `SipApp::handle_call_request`:
`createSession` is the backend `POST /session_v2`
(`SipApp::create_backend_session`), `bindSession` stores the session id
on the call and in the registry, `connectWs` opens the event stream,
`makeCall` dials, `registerCall` adds the call to the registry, and
`closeSession` is the backend `POST /session/{id}/close`. -/
inductive SipEffect
  | createSession (user_id name conversation_id : String)
      (kwargs : Option String) (communication_id : Option String)
  | bindSession (session_id : String)
  | connectWs
  | makeCall (to_uri : String)
  | registerCall
  | closeSession (session_id : String)
deriving DecidableEq, Repr

/-- `SipApp::handle_call_request` (app.cpp lines 369-408), on the path
where the backend session creation succeeds and returns `session_id`.
Returns the REST response together with the ordered list of effects the
handler performed.  The `account_` null check happens only after the
backend session has been created. -/
def handle_call_request (body : CallRequestBody) (accountPresent : Bool)
    (session_id : String) : RestResponse × List SipEffect :=
  match body.to_uri with
  | none => (⟨400, "to_uri is required"⟩, [])
  | some to_uri =>
      let created := [SipEffect.createSession to_uri "" "" body.env_info
        body.communication_id]
      if ¬accountPresent then (⟨503, "sip not initialized"⟩, created)
      else (⟨200, "ok"⟩,
        created ++ [SipEffect.bindSession session_id, SipEffect.connectWs,
          SipEffect.makeCall to_uri, SipEffect.registerCall])

/-- C10: when the request body contains `to_uri` and the SIP account is
not initialized, `handle_call_request` still performs the backend
`POST /session_v2` (creating a session) and only then returns 503; no
bind, event-stream connect, dial, registration, or session close is
performed, so the created backend session stays unbound and unclosed. -/
theorem call_request_creates_session_before_sip_check
    (to_uri : String) (env_info communication_id : Option String)
    (session_id : String) :
    handle_call_request ⟨some to_uri, env_info, communication_id⟩ false session_id =
      (⟨503, "sip not initialized"⟩,
       [SipEffect.createSession to_uri "" "" env_info communication_id]) := by
  rfl

/-! ## TTS pipeline (`src/src/sip/tts_pipeline.cpp`) -/

/-- A `TtsTask`/`PendingTtsTask`: the request text tagged with its enqueue
sequence number `tid` (enqueue order is the order of `tid`).  The shared
cancellation flag and the shared future are modelled in `TtsState` keyed
by `tid`. -/
structure TtsTask where
  tid : Nat
  text : String
deriving DecidableEq, Repr

/-- State of a `TtsPipeline`:
`queue` is the ordered queue `queue_` (delivery order), `pending` the
scheduling queue `pending_`, `canceled` the set of task ids whose shared
cancellation flag is set, `futures` the resolved shared futures
(`tid` paired with the synthesized path id, `none` when synthesis
produced no path or threw), `delivered` the ordered log of `ready_fn_`
invocations, and `nextId` the next enqueue sequence number. -/
structure TtsState where
  queue : List TtsTask
  pending : List TtsTask
  canceled : List Nat
  futures : List (Nat × Option Nat)
  delivered : List (Nat × String)
  nextId : Nat
deriving DecidableEq, Repr

/-- A fresh `TtsPipeline`. -/
def initTts : TtsState :=
  { queue := [], pending := [], canceled := [], futures := [],
    delivered := [], nextId := 0 }

/-- Whether the shared future of task `tid` is ready
(`future.wait_for(0) == ready`). -/
def futureReady (s : TtsState) (tid : Nat) : Bool :=
  (s.futures.lookup tid).isSome

/-- The value stored in the resolved future of task `tid`
(`future.get()`; `none` both for "synthesis returned nullopt" and for a
rethrown exception, which `try_play` treats alike). -/
def futureValue (s : TtsState) (tid : Nat) : Option Nat :=
  (s.futures.lookup tid).getD none

/-- `TtsPipeline::enqueue` with `delay_sec = 0` (tts_pipeline.cpp lines
30-47): append a fresh task to both the ordered queue and the pending
queue. -/
def tts_enqueue (s : TtsState) (text : String) : TtsState :=
  let task : TtsTask := ⟨s.nextId, text⟩
  { s with
    queue := s.queue ++ [task],
    pending := s.pending ++ [task],
    nextId := s.nextId + 1 }

/-- `TtsPipeline::cancel` (tts_pipeline.cpp lines 50-64): set the shared
cancellation flag of every task in either queue, then clear both
queues. -/
def tts_cancel (s : TtsState) : TtsState :=
  { s with
    canceled := s.canceled ++ (s.queue.map fun t => t.tid) ++
      (s.pending.map fun t => t.tid),
    queue := [], pending := [] }

/-- Resolution of the shared future of task `tid` with result `r`
(the packaged task finishing in a worker).  A future resolves at most
once. -/
def tts_resolve (s : TtsState) (tid : Nat) (r : Option Nat) : TtsState :=
  if futureReady s tid then s
  else { s with futures := s.futures ++ [(tid, r)] }

/-- The loop body of `TtsPipeline::try_play` (tts_pipeline.cpp lines
75-107): repeatedly inspect the front of the ordered queue; stop when the
queue is empty or the front future is not ready; otherwise pop the front
and, unless it was cancelled or carries no path, invoke `ready_fn_`. -/
def try_play_go (s : TtsState) : List TtsTask → List TtsTask × List (Nat × String)
  | [] => ([], [])
  | t :: rest =>
      if ¬futureReady s t.tid then (t :: rest, [])
      else if t.tid ∈ s.canceled then try_play_go s rest
      else match futureValue s t.tid with
        | none => try_play_go s rest
        | some _ =>
            let (q, d) := try_play_go s rest
            (q, (t.tid, t.text) :: d)

/-- `TtsPipeline::try_play`. -/
def try_play (s : TtsState) (can_play : Bool) : TtsState :=
  if ¬can_play then s
  else
    let (q, d) := try_play_go s s.queue
    { s with queue := q, delivered := s.delivered ++ d }

/-- `TtsPipeline::has_queue`. -/
def has_queue (s : TtsState) : Bool :=
  ¬s.queue.isEmpty

/-- Operations on a `TtsPipeline`, serialized by the pipeline mutex. -/
inductive TtsOp
  | enqueue (text : String)
  | cancel
  | resolve (tid : Nat) (r : Option Nat)
  | tryPlay (can_play : Bool)
deriving DecidableEq, Repr

/-- One pipeline operation. -/
def ttsStep (s : TtsState) : TtsOp → TtsState
  | TtsOp.enqueue text => tts_enqueue s text
  | TtsOp.cancel => tts_cancel s
  | TtsOp.resolve tid r => tts_resolve s tid r
  | TtsOp.tryPlay can_play => try_play s can_play

/-- The pipeline state after a sequence of operations on a fresh
pipeline. -/
def runTts (ops : List TtsOp) : TtsState :=
  ops.foldl ttsStep initTts


/-! ## Theorems: C3 (TTS order preservation) -/

theorem try_play_go_queue (s : TtsState) :
    ∀ q : List TtsTask,
      (try_play_go s q).1 = q.dropWhile fun t => futureReady s t.tid := by
  intro q
  induction q with
  | nil => rfl
  | cons t rest ih =>
      by_cases hr : futureReady s t.tid
      · by_cases hc : t.tid ∈ s.canceled
        · simp [try_play_go, hr, hc, ih]
        · cases hv : futureValue s t.tid with
          | none => simp [try_play_go, hr, hc, hv, ih]
          | some p => simp [try_play_go, hr, hc, hv, ih]
      · simp [try_play_go, hr]

theorem try_play_go_sublist (s : TtsState) :
    ∀ q : List TtsTask,
      ((try_play_go s q).2.map Prod.fst ++
        ((try_play_go s q).1.map fun t => t.tid)).Sublist
        (q.map fun t => t.tid) := by
  intro q
  induction q with
  | nil => simp [try_play_go]
  | cons t rest ih =>
      by_cases hr : futureReady s t.tid
      · by_cases hc : t.tid ∈ s.canceled
        · refine List.Sublist.trans ?_ (List.sublist_cons_self t.tid _)
          simpa [try_play_go, hr, hc] using ih
        · cases hv : futureValue s t.tid with
          | none =>
              refine List.Sublist.trans ?_ (List.sublist_cons_self t.tid _)
              simpa [try_play_go, hr, hc, hv] using ih
          | some p =>
              have h2 := List.Sublist.cons₂ t.tid ih
              simpa [try_play_go, hr, hc, hv] using h2
      · simp [try_play_go, hr]

/-- The ids whose relative order the pipeline must preserve: the delivery
log followed by the ordered queue. -/
def ttsIds (s : TtsState) : List Nat :=
  (s.delivered.map Prod.fst) ++ (s.queue.map fun t => t.tid)

/-- Inductive invariant of the pipeline: the delivery log followed by the
ordered queue is strictly increasing in enqueue number, and every listed
id is below the enqueue counter. -/
def TtsInv (s : TtsState) : Prop :=
  List.Pairwise (· < ·) (ttsIds s) ∧ ∀ i ∈ ttsIds s, i < s.nextId

theorem ttsInv_init : TtsInv initTts := by
  constructor <;> simp [ttsIds, initTts]

theorem ttsInv_step (s : TtsState) (op : TtsOp) (h : TtsInv s) :
    TtsInv (ttsStep s op) := by
  obtain ⟨hp, hb⟩ := h
  cases op with
  | enqueue text =>
      have hids : ttsIds (ttsStep s (TtsOp.enqueue text)) = ttsIds s ++ [s.nextId] := by
        simp [ttsStep, tts_enqueue, ttsIds]
      constructor
      · rw [hids]
        refine List.pairwise_append.mpr ⟨hp, List.pairwise_singleton _ _, ?_⟩
        intro a ha b hb2
        simp only [List.mem_singleton] at hb2
        subst hb2
        exact hb a ha
      · intro i hi
        rw [hids] at hi
        have hnext : (ttsStep s (TtsOp.enqueue text)).nextId = s.nextId + 1 := rfl
        rw [hnext]
        rcases List.mem_append.mp hi with hi | hi
        · exact lt_trans (hb i hi) (Nat.lt_succ_self _)
        · simp only [List.mem_singleton] at hi
          subst hi
          exact Nat.lt_succ_self _
  | cancel =>
      have hids : ttsIds (ttsStep s TtsOp.cancel) = s.delivered.map Prod.fst := by
        simp [ttsStep, tts_cancel, ttsIds]
      have hsub : (ttsIds (ttsStep s TtsOp.cancel)).Sublist (ttsIds s) := by
        rw [hids]
        exact List.sublist_append_left _ _
      refine ⟨List.Pairwise.sublist hsub hp, ?_⟩
      intro i hi
      exact hb i (hsub.mem hi)
  | resolve tid r =>
      have hids : ttsIds (ttsStep s (TtsOp.resolve tid r)) = ttsIds s := by
        simp only [ttsStep, tts_resolve]
        split <;> rfl
      have hnext : (ttsStep s (TtsOp.resolve tid r)).nextId = s.nextId := by
        simp only [ttsStep, tts_resolve]
        split <;> rfl
      rw [TtsInv, hids, hnext]
      exact ⟨hp, hb⟩
  | tryPlay can_play =>
      by_cases hcp : can_play = true
      · subst hcp
        have hstep : ttsStep s (TtsOp.tryPlay true) =
            { s with queue := (try_play_go s s.queue).1,
                     delivered := s.delivered ++ (try_play_go s s.queue).2 } := by
          simp [ttsStep, try_play]
        have hsub : (ttsIds (ttsStep s (TtsOp.tryPlay true))).Sublist (ttsIds s) := by
          have hgo := try_play_go_sublist s s.queue
          rw [hstep]
          simp only [ttsIds, List.map_append, List.append_assoc]
          exact (List.Sublist.refl _).append hgo
        have hnext : (ttsStep s (TtsOp.tryPlay true)).nextId = s.nextId := by
          rw [hstep]
        refine ⟨List.Pairwise.sublist hsub hp, ?_⟩
        intro i hi
        rw [hnext]
        exact hb i (hsub.mem hi)
      · have hstep : ttsStep s (TtsOp.tryPlay can_play) = s := by
          simp only [Bool.not_eq_true] at hcp
          subst hcp
          rfl
        rw [hstep]
        exact ⟨hp, hb⟩

theorem ttsInv_run (ops : List TtsOp) : TtsInv (runTts ops) := by
  suffices h : ∀ s, TtsInv s → TtsInv (ops.foldl ttsStep s) from
    h initTts ttsInv_init
  induction ops with
  | nil => intro s hs; exact hs
  | cons op rest ih => intro s hs; exact ih _ (ttsInv_step s op hs)

/-- C3: TTS order preservation.  After any sequence of pipeline
operations, the log of `ready_fn_` invocations is strictly increasing in
enqueue sequence number — if `t_i` was enqueued before `t_j` (so
`t_i.tid < t_j.tid`) and both were delivered, `ready(t_i,_)` was invoked
before `ready(t_j,_)`.  Moreover `try_play` consumes exactly the maximal
prefix of the ordered queue whose futures are ready, so a task whose
synthesis has not completed blocks delivery of every task enqueued after
it, even when their synthesis completed earlier. -/
theorem tts_order_preservation :
    (∀ ops : List TtsOp,
      List.Pairwise (· < ·) ((runTts ops).delivered.map Prod.fst)) ∧
    (∀ s : TtsState,
      (try_play s true).queue = s.queue.dropWhile fun t => futureReady s t.tid) := by
  constructor
  · intro ops
    exact List.Pairwise.sublist (List.sublist_append_left _ _) (ttsInv_run ops).1
  · intro s
    have hgo := try_play_go_queue s s.queue
    have hstep : try_play s true =
        { s with queue := (try_play_go s s.queue).1,
                 delivered := s.delivered ++ (try_play_go s s.queue).2 } := by
      simp [try_play]
    rw [hstep]
    exact hgo

/-! ## Theorems: C4 (cancellation quiescence) -/

/-- Invariant of the pipeline after a `cancel`: the delivery log extends
`base` (the log at cancel time) only with tasks whose enqueue number is
at least `n0` (the enqueue counter at cancel time), the ordered queue
holds only such tasks, and the counter never goes below `n0`. -/
def TtsAfter (n0 : Nat) (base : List (Nat × String)) (s : TtsState) : Prop :=
  (∃ tail, s.delivered = base ++ tail ∧ ∀ d ∈ tail, n0 ≤ d.1) ∧
  (∀ t ∈ s.queue, n0 ≤ t.tid) ∧ n0 ≤ s.nextId

theorem ttsAfter_step (n0 : Nat) (base : List (Nat × String)) (s : TtsState)
    (op : TtsOp) (h : TtsAfter n0 base s) : TtsAfter n0 base (ttsStep s op) := by
  obtain ⟨⟨tail, htail, hge⟩, hq, hn⟩ := h
  cases op with
  | enqueue text =>
      refine ⟨⟨tail, htail, hge⟩, ?_, ?_⟩
      · intro t ht
        simp only [ttsStep, tts_enqueue, List.mem_append, List.mem_singleton] at ht
        rcases ht with ht | ht
        · exact hq t ht
        · subst ht; exact hn
      · exact le_trans hn (Nat.le_succ _)
  | cancel =>
      refine ⟨⟨tail, htail, hge⟩, ?_, hn⟩
      intro t ht
      simp [ttsStep, tts_cancel] at ht
  | resolve tid r =>
      have hd : (ttsStep s (TtsOp.resolve tid r)).delivered = s.delivered := by
        simp only [ttsStep, tts_resolve]; split <;> rfl
      have hqq : (ttsStep s (TtsOp.resolve tid r)).queue = s.queue := by
        simp only [ttsStep, tts_resolve]; split <;> rfl
      have hnn : (ttsStep s (TtsOp.resolve tid r)).nextId = s.nextId := by
        simp only [ttsStep, tts_resolve]; split <;> rfl
      rw [TtsAfter, hd, hqq, hnn]
      exact ⟨⟨tail, htail, hge⟩, hq, hn⟩
  | tryPlay can_play =>
      by_cases hcp : can_play = true
      · subst hcp
        have hstep : ttsStep s (TtsOp.tryPlay true) =
            { s with queue := (try_play_go s s.queue).1,
                     delivered := s.delivered ++ (try_play_go s s.queue).2 } := by
          simp [ttsStep, try_play]
        have hgo := try_play_go_sublist s s.queue
        rw [hstep]
        refine ⟨⟨tail ++ (try_play_go s s.queue).2, ?_, ?_⟩, ?_, hn⟩
        · simp only [htail, List.append_assoc]
        · intro d hd
          rcases List.mem_append.mp hd with hd | hd
          · exact hge d hd
          · have hmem : d.1 ∈ s.queue.map fun t => t.tid := by
              refine hgo.mem ?_
              exact List.mem_append.mpr (Or.inl (List.mem_map.mpr ⟨d, hd, rfl⟩))
            rcases List.mem_map.mp hmem with ⟨t, htmem, hteq⟩
            rw [← hteq]
            exact hq t htmem
        · intro t ht
          have hmem : t.tid ∈ s.queue.map fun u => u.tid := by
            refine hgo.mem ?_
            exact List.mem_append.mpr (Or.inr (List.mem_map.mpr ⟨t, ht, rfl⟩))
          rcases List.mem_map.mp hmem with ⟨u, humem, hueq⟩
          rw [← hueq]
          exact hq u humem
      · have hstep : ttsStep s (TtsOp.tryPlay can_play) = s := by
          simp only [Bool.not_eq_true] at hcp
          subst hcp
          rfl
        rw [hstep]
        exact ⟨⟨tail, htail, hge⟩, hq, hn⟩

theorem ttsAfter_run (n0 : Nat) (base : List (Nat × String)) (ops : List TtsOp) :
    ∀ s, TtsAfter n0 base s → TtsAfter n0 base (ops.foldl ttsStep s) := by
  induction ops with
  | nil => intro s hs; exact hs
  | cons op rest ih => intro s hs; exact ih _ (ttsAfter_step n0 base s op hs)

/-- C4: Cancellation quiescence.  `cancel()` sets the shared cancellation
flag of every task in the ordered queue and in the pending queue and
empties both queues; and after a `cancel`, no later `try_play` ever
invokes `ready_fn_` for a task enqueued before the cancel: every delivery
logged after the cancel carries an enqueue number at least the enqueue
counter at cancel time, while all tasks enqueued before the cancel have a
strictly smaller number. -/
theorem tts_cancellation_quiescence :
    (∀ s : TtsState,
      (tts_cancel s).queue = [] ∧ (tts_cancel s).pending = [] ∧
      (∀ t ∈ s.queue, t.tid ∈ (tts_cancel s).canceled) ∧
      (∀ t ∈ s.pending, t.tid ∈ (tts_cancel s).canceled)) ∧
    (∀ ops1 ops2 : List TtsOp, ∃ tail,
      (runTts (ops1 ++ TtsOp.cancel :: ops2)).delivered =
        (runTts ops1).delivered ++ tail ∧
      ∀ d ∈ tail, (runTts ops1).nextId ≤ d.1) := by
  constructor
  · intro s
    refine ⟨rfl, rfl, ?_, ?_⟩
    · intro t ht
      simp only [tts_cancel, List.mem_append, List.mem_map]
      exact Or.inl (Or.inr ⟨t, ht, rfl⟩)
    · intro t ht
      simp only [tts_cancel, List.mem_append, List.mem_map]
      exact Or.inr ⟨t, ht, rfl⟩
  · intro ops1 ops2
    have hrun : runTts (ops1 ++ TtsOp.cancel :: ops2) =
        ops2.foldl ttsStep (ttsStep (runTts ops1) TtsOp.cancel) := by
      simp [runTts, List.foldl_append]
    have hstart : TtsAfter (runTts ops1).nextId (runTts ops1).delivered
        (ttsStep (runTts ops1) TtsOp.cancel) := by
      refine ⟨⟨[], by simp [ttsStep, tts_cancel], by simp⟩, ?_, le_refl _⟩
      intro t ht
      simp [ttsStep, tts_cancel] at ht
    have hafter := ttsAfter_run (runTts ops1).nextId (runTts ops1).delivered ops2 _ hstart
    rw [← hrun] at hafter
    obtain ⟨⟨tail, htail, hge⟩, _, _⟩ := hafter
    exact ⟨tail, htail, hge⟩

/-- Witness for C4 at a concrete pipeline history: one task enqueued,
cancelled, then a later task enqueued, resolved and played. -/
theorem tts_cancellation_quiescence_witness :
    ((tts_cancel (runTts [TtsOp.enqueue "a"])).queue = [] ∧
      (⟨0, "a"⟩ : TtsTask).tid ∈ (tts_cancel (runTts [TtsOp.enqueue "a"])).canceled) ∧
    (∃ tail,
      (runTts ([TtsOp.enqueue "a"] ++ TtsOp.cancel ::
          [TtsOp.enqueue "b", TtsOp.resolve 1 (some 5), TtsOp.tryPlay true])).delivered =
        (runTts [TtsOp.enqueue "a"]).delivered ++ tail ∧
      ∀ d ∈ tail, (runTts [TtsOp.enqueue "a"]).nextId ≤ d.1) :=
  ⟨⟨(tts_cancellation_quiescence.1 (runTts [TtsOp.enqueue "a"])).1,
    (tts_cancellation_quiescence.1 (runTts [TtsOp.enqueue "a"])).2.2.1
      ⟨0, "a"⟩ (by decide)⟩,
   tts_cancellation_quiescence.2 [TtsOp.enqueue "a"]
     [TtsOp.enqueue "b", TtsOp.resolve 1 (some 5), TtsOp.tryPlay true]⟩

/-! ## WAV encoding (`src/src/sip/call.cpp`, `SipCall::encode_wav`) -/

/-- Clamping of one sample to [-1, 1]
(`std::max(-1.0f, std::min(1.0f, sample))`).  C++ `float` samples are
modelled as exact rationals. -/
def clampSample (x : ℚ) : ℚ :=
  max (-1) (min 1 x)

/-- C truncation toward zero: the semantics of `static_cast<int16_t>`
applied to an in-range floating value. -/
def truncToZero (q : ℚ) : ℤ :=
  if 0 ≤ q then ⌊q⌋ else ⌈q⌉

/-- The int16 sample written for one float sample: clamp to [-1, 1],
scale by `std::numeric_limits<int16_t>::max() = 32767`, truncate. -/
def quantizeSample (x : ℚ) : ℤ :=
  truncToZero (clampSample x * 32767)

/-- `append_u16` in `encode_wav`: little-endian bytes of a 16-bit
value. -/
def append_u16 (v : ℕ) : List ℕ :=
  [v % 256, (v / 256) % 256]

/-- `append_u32` in `encode_wav`: little-endian bytes of a 32-bit
value. -/
def append_u32 (v : ℕ) : List ℕ :=
  [v % 256, (v / 256) % 256, (v / 2 ^ 16) % 256, (v / 2 ^ 24) % 256]

/-- The two little-endian bytes of an int16 value in two's complement
(`append(&pcm, sizeof(pcm))` on a little-endian target). -/
def append_i16 (v : ℤ) : List ℕ :=
  append_u16 (v % 65536).toNat

/-- `SipCall::encode_wav` (call.cpp lines 690-743) over a float mono
buffer, with the configured `vad_sampling_rate`.  Bytes are numbers below
256; the four-character tags are their ASCII codes
(`RIFF`, `WAVE`, `fmt `, `data`). -/
def encode_wav (sample_rate : ℕ) (audio : List ℚ) : List ℕ :=
  let channels : ℕ := 1
  let bits_per_sample : ℕ := 16
  let block_align : ℕ := channels * (bits_per_sample / 8)
  let byte_rate : ℕ := sample_rate * block_align
  let data_size : ℕ := audio.length * 2
  let chunk_size : ℕ := 36 + data_size
  [82, 73, 70, 70] ++ append_u32 chunk_size ++
    [87, 65, 86, 69] ++ [102, 109, 116, 32] ++
    append_u32 16 ++ append_u16 1 ++ append_u16 channels ++
    append_u32 sample_rate ++ append_u32 byte_rate ++
    append_u16 block_align ++ append_u16 bits_per_sample ++
    [100, 97, 116, 97] ++ append_u32 data_size ++
    (audio.map fun s => append_i16 (quantizeSample s)).flatten

/-- Decoding of one little-endian two's-complement int16 from two
bytes. -/
def decode_i16 (lo hi : ℕ) : ℤ :=
  if lo + 256 * hi < 32768 then ((lo + 256 * hi : ℕ) : ℤ)
  else ((lo + 256 * hi : ℕ) : ℤ) - 65536

/-- Parser for the data section of the produced blob: consume pairs of
bytes as little-endian int16 samples. -/
def parse_wav_data : List ℕ → List ℤ
  | lo :: hi :: rest => decode_i16 lo hi :: parse_wav_data rest
  | _ => []

/-- The 44-byte RIFF/WAVE header as described by the specification:
`RIFF`, chunk_size = 36 + data, `WAVE`, `fmt `(16), PCM(1), channels = 1,
the sample rate, byte_rate, block_align, bits = 16, `data`,
data_size = 2 bytes per sample. -/
def wav_header_spec (sample_rate n : ℕ) : List ℕ :=
  [82, 73, 70, 70] ++ append_u32 (36 + 2 * n) ++
    [87, 65, 86, 69] ++ [102, 109, 116, 32] ++
    append_u32 16 ++ append_u16 1 ++ append_u16 1 ++
    append_u32 sample_rate ++ append_u32 (sample_rate * 2) ++
    append_u16 2 ++ append_u16 16 ++
    [100, 97, 116, 97] ++ append_u32 (2 * n)

/-! ## Theorems: C9 (WAV encoding round-trip) -/

theorem quantizeSample_bounds (x : ℚ) :
    -32767 ≤ quantizeSample x ∧ quantizeSample x ≤ 32767 := by
  have hlo : -1 ≤ clampSample x := le_max_left _ _
  have hhi : clampSample x ≤ 1 := max_le (by norm_num) (min_le_left _ _)
  have hplo : (-32767 : ℚ) ≤ clampSample x * 32767 := by nlinarith
  have hphi : clampSample x * 32767 ≤ 32767 := by nlinarith
  unfold quantizeSample truncToZero
  split
  · rename_i hq
    have h0 : (0 : ℤ) ≤ ⌊clampSample x * 32767⌋ :=
      Int.le_floor.mpr (by exact_mod_cast hq)
    have h1 : ⌊clampSample x * 32767⌋ ≤ 32767 := by
      have h2 := Int.floor_le_floor hphi
      simpa using h2
    omega
  · rename_i hq
    have h0 : ⌈clampSample x * 32767⌉ ≤ 0 := by
      refine Int.ceil_le.mpr ?_
      push_cast
      exact le_of_lt (lt_of_not_le hq)
    have h1 : (-32767 : ℤ) ≤ ⌈clampSample x * 32767⌉ := by
      have h2 := Int.ceil_le_ceil hplo
      simpa using h2
    omega

theorem decode_append_i16 (z : ℤ) (h1 : -32768 ≤ z) (h2 : z ≤ 32767) :
    decode_i16 ((z % 65536).toNat % 256) (((z % 65536).toNat / 256) % 256) = z := by
  unfold decode_i16
  split <;> push_cast <;> omega

theorem parse_wav_data_flatten (audio : List ℚ) :
    parse_wav_data ((audio.map fun s => append_i16 (quantizeSample s)).flatten) =
      audio.map quantizeSample := by
  induction audio with
  | nil => rfl
  | cons x rest ih =>
      have hb := quantizeSample_bounds x
      have hd := decode_append_i16 (quantizeSample x) (by omega) hb.2
      show parse_wav_data (((quantizeSample x % 65536).toNat % 256) ::
          (((quantizeSample x % 65536).toNat / 256) % 256) ::
          (List.map (fun s => append_i16 (quantizeSample s)) rest).flatten) =
        quantizeSample x :: List.map quantizeSample rest
      simp only [parse_wav_data]
      rw [ih, hd]

theorem encode_wav_header_data (sample_rate : ℕ) (audio : List ℚ) :
    encode_wav sample_rate audio =
      wav_header_spec sample_rate audio.length ++
        (audio.map fun s => append_i16 (quantizeSample s)).flatten := by
  simp [encode_wav, wav_header_spec, Nat.mul_comm]

theorem wav_header_spec_length (sample_rate n : ℕ) :
    (wav_header_spec sample_rate n).length = 44 := by
  simp [wav_header_spec, append_u16, append_u32]

theorem wav_data_length (audio : List ℚ) :
    ((audio.map fun s => append_i16 (quantizeSample s)).flatten).length =
      2 * audio.length := by
  induction audio with
  | nil => rfl
  | cons x rest ih =>
      show (append_i16 (quantizeSample x) ++
          (List.map (fun s => append_i16 (quantizeSample s)) rest).flatten).length =
        2 * (rest.length + 1)
      rw [List.length_append, ih]
      simp only [append_i16, append_u16, List.length_cons, List.length_nil]
      omega

/-- C9: WAV encoding round-trip.  `encode_wav` produces exactly the
44-byte RIFF/WAVE header with the specified fields (chunk_size = 36 +
data_size, fmt size 16, PCM format 1, one channel, the configured sample
rate, byte_rate = rate × 2, block_align = 2, 16 bits per sample,
data_size = 2 bytes per sample) followed by the samples clamped to
[-1, 1], scaled by `INT16_MAX` and written as little-endian int16; the
blob is 44 + 2·n bytes long; parsing the data section back yields
exactly the quantized samples; and re-quantizing a decoded sample gives
the same int16 value, so the decoded audio equals the original modulo
int16 quantization. -/
theorem encode_wav_roundtrip (sample_rate : ℕ) (audio : List ℚ) :
    encode_wav sample_rate audio =
      wav_header_spec sample_rate audio.length ++
        (audio.map fun s => append_i16 (quantizeSample s)).flatten ∧
    (encode_wav sample_rate audio).length = 44 + 2 * audio.length ∧
    parse_wav_data ((encode_wav sample_rate audio).drop 44) =
      audio.map quantizeSample ∧
    ∀ x : ℚ, quantizeSample ((quantizeSample x : ℚ) / 32767) = quantizeSample x := by
  refine ⟨encode_wav_header_data sample_rate audio, ?_, ?_, ?_⟩
  · rw [encode_wav_header_data sample_rate audio, List.length_append,
      wav_header_spec_length, wav_data_length]
  · rw [encode_wav_header_data sample_rate audio]
    have hdrop := List.drop_left (wav_header_spec sample_rate audio.length)
      ((audio.map fun s => append_i16 (quantizeSample s)).flatten)
    rw [wav_header_spec_length] at hdrop
    rw [hdrop]
    exact parse_wav_data_flatten audio
  · intro x
    have hb := quantizeSample_bounds x
    have hzlo : (-1 : ℚ) ≤ (quantizeSample x : ℚ) / 32767 := by
      rw [le_div_iff (by norm_num : (0:ℚ) < 32767)]
      have hcast : ((-32767 : ℤ) : ℚ) ≤ (quantizeSample x : ℚ) := by
        exact_mod_cast hb.1
      push_cast at hcast
      linarith
    have hzhi : (quantizeSample x : ℚ) / 32767 ≤ 1 := by
      rw [div_le_iff (by norm_num : (0:ℚ) < 32767)]
      have hcast : ((quantizeSample x : ℤ) : ℚ) ≤ ((32767 : ℤ) : ℚ) := by
        exact_mod_cast hb.2
      push_cast at hcast
      linarith
    have hclamp : clampSample ((quantizeSample x : ℚ) / 32767) =
        (quantizeSample x : ℚ) / 32767 := by
      unfold clampSample
      rw [min_eq_right hzhi, max_eq_right hzlo]
    conv_lhs => rw [quantizeSample, hclamp]
    rw [div_mul_cancel₀ _ (by norm_num : (32767 : ℚ) ≠ 0)]
    unfold truncToZero
    split <;> simp

/-! ## VAD model download (`src/src/sip/app.cpp`, `download_file` and URL helpers) -/

/-- Whether `pat` occurs at the front of `l`. -/
def patAtFront : List Char → List Char → Bool
  | [], _ => true
  | _ :: _, [] => false
  | p :: ps, c :: cs => p = c && patAtFront ps cs

/-- Index of the first occurrence of `pat` in `l` starting at offset `i`
(`std::string::find`; `none` plays the role of `npos`). -/
def findSubFrom (pat : List Char) : List Char → ℕ → Option ℕ
  | [], i => if pat = [] then some i else none
  | c :: rest, i =>
      if patAtFront pat (c :: rest) then some i
      else findSubFrom pat rest (i + 1)

/-- `std::string::find` for a pattern string. -/
def strFind (s pat : String) : Option ℕ :=
  findSubFrom pat.toList s.toList 0

/-- `std::string::find_last_of` for a single character. -/
def strFindLastAux (c : Char) : List Char → ℕ → Option ℕ → Option ℕ
  | [], _, acc => acc
  | x :: rest, i, acc =>
      strFindLastAux c rest (i + 1) (if x = c then some i else acc)

/-- Index of the last occurrence of character `c` in `s`. -/
def strFindLast (s : String) (c : Char) : Option ℕ :=
  strFindLastAux c s.toList 0 none

/-- `std::tolower` applied per character of the scheme. -/
def lowerString (s : String) : String :=
  String.mk (s.toList.map Char.toLower)

/-- Substring of the first `n` characters (`std::string::substr(0, n)`). -/
def strTake (s : String) (n : ℕ) : String :=
  String.mk (s.toList.take n)

/-- Substring from character `n` on (`std::string::substr(n)`). -/
def strDrop (s : String) (n : ℕ) : String :=
  String.mk (s.toList.drop n)

/-- Whether `pre` is an initial segment of `s`
(`std::string::rfind(pre, 0) == 0`). -/
def strStartsWith (s pre : String) : Bool :=
  patAtFront pre.toList s.toList

/-- `std::stoi` on the port substring, for the strings the loop actually
produces (leading decimal digits; the source throws on a digit-free
string, modelled as 0 here and never exercised by the theorems). -/
def stoiNat (s : String) : ℕ :=
  (s.toList.takeWhile Char.isDigit).foldl
    (fun acc c => acc * 10 + (c.toNat - 48)) 0

/-- The out-parameters of `parse_url`. -/
structure UrlParts where
  scheme : String
  host : String
  port : ℕ
  path : String
deriving DecidableEq, Repr

/-- `parse_url` (app.cpp lines 25-57): split `scheme://host:port/path`,
defaulting the scheme to `http`, the path to `/` and the port to 443 for
https and 80 otherwise. -/
def parse_url (url : String) : UrlParts :=
  let working := url
  let p := strFind working "://"
  let scheme := match p with
    | some i => lowerString (strTake working i)
    | none => "http"
  let working := match p with
    | some i => strDrop working (i + 3)
    | none => working
  let q := strFind working "/"
  let base_path := match q with
    | some i => strDrop working i
    | none => "/"
  let working := match q with
    | some i => strTake working i
    | none => working
  match strFind working ":" with
  | some i =>
      ⟨scheme, strTake working i, stoiNat (strDrop working (i + 1)), base_path⟩
  | none =>
      ⟨scheme, working, if scheme = "https" then 443 else 80, base_path⟩

/-- `build_url` (app.cpp lines 59-75). -/
def build_url (scheme host : String) (port : ℕ) (path : String) : String :=
  let out := scheme ++ "://" ++ host
  let default_port := (scheme = "https" ∧ port = 443) ∨ (scheme = "http" ∧ port = 80)
  let out := if ¬default_port ∧ 0 < port then out ++ ":" ++ toString port else out
  let out := if path ≠ "" ∧ ¬strStartsWith path "/" then out ++ "/" else out
  out ++ path

/-- `resolve_redirect_url` (app.cpp lines 77-98): absolute locations are
taken as-is, locations starting with `/` are resolved against the host,
other locations against the directory of the current path; an empty
location resolves to the empty string (failure). -/
def resolve_redirect_url (base_url location : String) : String :=
  if strStartsWith location "http://" ∨ strStartsWith location "https://" then
    location
  else
    let parts := parse_url base_url
    if location = "" then ""
    else if strStartsWith location "/" then
      build_url parts.scheme parts.host parts.port location
    else
      let base_dir := match strFindLast parts.path '/' with
        | none => "/"
        | some i => strTake parts.path (i + 1)
      build_url parts.scheme parts.host parts.port (base_dir ++ location)

/-- An HTTP response as consumed by `download_file`: the status, the
`Location` header when present, and the body bytes. -/
structure HttpResp where
  status : ℕ
  location : Option String
  body : List ℕ
deriving DecidableEq, Repr

/-- The HTTP collaborator: a GET of (host, port, path) either fails at
the transport level (`none`) or yields a response.  The scheme only
selects the client object in the source; both clients issue the same
GET. -/
abbrev HttpServer : Type :=
  String → ℕ → String → Option HttpResp

/-- The body of the `for (int attempt = 0; attempt < 5; ++attempt)` loop
of `download_file` (app.cpp lines 100-203), with `fuel` remaining loop
iterations.  Returns the bytes written to disk on success and `none` on
any failure path (empty host, transport error, redirect without a usable
location, non-2xx non-redirect status, or loop exhaustion — "too many
redirects"). -/
def download_go (server : HttpServer) : ℕ → String → Option (List ℕ)
  | 0, _ => none
  | fuel + 1, current_url =>
      let parts := parse_url current_url
      if parts.host = "" then none
      else
        match server parts.host parts.port parts.path with
        | none => none
        | some resp =>
            if 200 ≤ resp.status ∧ resp.status < 300 then some resp.body
            else if resp.status = 301 ∨ resp.status = 302 ∨ resp.status = 303 ∨
                resp.status = 307 ∨ resp.status = 308 then
              match resp.location with
              | none => none
              | some loc =>
                  let next_url := resolve_redirect_url current_url loc
                  if next_url = "" then none
                  else download_go server fuel next_url
            else none

/-- `download_file` (app.cpp lines 100-203): at most 5 requests. -/
def download_file (server : HttpServer) (url : String) : Option (List ℕ) :=
  download_go server 5 url

/-- One redirect hop: the request at `url` reaches the server, yields a
redirect status with a `Location` header, and the location resolves to
the non-empty URL `next`. -/
def RedirStepHolds (server : HttpServer) (url next : String) : Prop :=
  ∃ resp loc, (parse_url url).host ≠ "" ∧
    server (parse_url url).host (parse_url url).port (parse_url url).path =
      some resp ∧
    (resp.status = 301 ∨ resp.status = 302 ∨ resp.status = 303 ∨
      resp.status = 307 ∨ resp.status = 308) ∧
    resp.location = some loc ∧
    resolve_redirect_url url loc = next ∧ next ≠ ""

/-- `RedirectChain server url k final`: starting from `url`, `k`
successive requests each produce a redirect that resolves, ending at URL
`final`. -/
inductive RedirectChain (server : HttpServer) : String → ℕ → String → Prop
  | refl (url : String) : RedirectChain server url 0 url
  | step {url next final : String} {k : ℕ} :
      RedirStepHolds server url next →
      RedirectChain server next k final →
      RedirectChain server url (k + 1) final

/-! ## Theorems: C7 (model download redirect limit) -/

theorem download_go_chain (server : HttpServer) {url final : String} {k : ℕ}
    (h : RedirectChain server url k final) :
    ∀ n, k ≤ n → download_go server n url = download_go server (n - k) final := by
  induction h with
  | refl url => intro n hn; simp
  | step hstep hchain ih =>
      rename_i url next final k
      intro n hn
      obtain ⟨resp, loc, hhost, hserver, hstatus, hloc, hresolve, hnext⟩ := hstep
      cases n with
      | zero => omega
      | succ m =>
          have h2xx : ¬(200 ≤ resp.status ∧ resp.status < 300) := by
            rcases hstatus with h | h | h | h | h <;> omega
          have hst : resp.status = 301 ∨ resp.status = 302 ∨ resp.status = 303 ∨
              resp.status = 307 ∨ resp.status = 308 := hstatus
          rw [download_go, if_neg hhost, hserver]
          simp only [if_neg h2xx, if_pos hst, hloc, hresolve, if_neg hnext]
          rw [ih m (by omega)]
          congr 1
          omega

/-- C7 (amended): the download loop performs at most 5 requests, so it
follows at most 4 redirects.  A redirect chain of at most 4 hops whose
final request answers 2xx succeeds with that response body; any chain of
5 redirects makes `download_file` fail, whatever the server would answer
next. -/
theorem download_redirect_limit (server : HttpServer) :
    (∀ (url final : String) (k : ℕ) (resp : HttpResp),
      RedirectChain server url k final → k ≤ 4 →
      (parse_url final).host ≠ "" →
      server (parse_url final).host (parse_url final).port
        (parse_url final).path = some resp →
      200 ≤ resp.status → resp.status < 300 →
      download_file server url = some resp.body) ∧
    (∀ url final : String,
      RedirectChain server url 5 final → download_file server url = none) := by
  constructor
  · intro url final k resp hchain hk hhost hserver h1 h2
    rw [download_file, download_go_chain server hchain 5 (by omega)]
    have hsplit : 5 - k = (4 - k) + 1 := by omega
    rw [hsplit, download_go, if_neg hhost, hserver]
    simp [h1, h2]
  · intro url final hchain
    rw [download_file, download_go_chain server hchain 5 (le_refl 5)]
    rfl

/-- A concrete HTTP collaborator: `/0 → /1 → /2 → /3 → /4 → /5` by 302
redirects, and `/5` answers 200 with a non-empty body.  Reaching the body
from `/0` needs 5 redirects; from `/1`, 4 redirects. -/
def exServer : HttpServer := fun host _port path =>
  if host = "redirecting.example" then
    if path = "/0" then some ⟨302, some "/1", []⟩
    else if path = "/1" then some ⟨302, some "/2", []⟩
    else if path = "/2" then some ⟨302, some "/3", []⟩
    else if path = "/3" then some ⟨302, some "/4", []⟩
    else if path = "/4" then some ⟨302, some "/5", []⟩
    else if path = "/5" then some ⟨200, none, [1, 2, 3]⟩
    else none
  else none

theorem exServer_chain_one (i : ℕ) (hi : i < 5) :
    RedirStepHolds exServer
      ("http://redirecting.example/" ++ toString i)
      ("http://redirecting.example/" ++ toString (i + 1)) := by
  interval_cases i
  · exact ⟨⟨302, some "/1", []⟩, "/1", by decide, by decide, by decide, rfl,
      by decide, by decide⟩
  · exact ⟨⟨302, some "/2", []⟩, "/2", by decide, by decide, by decide, rfl,
      by decide, by decide⟩
  · exact ⟨⟨302, some "/3", []⟩, "/3", by decide, by decide, by decide, rfl,
      by decide, by decide⟩
  · exact ⟨⟨302, some "/4", []⟩, "/4", by decide, by decide, by decide, rfl,
      by decide, by decide⟩
  · exact ⟨⟨302, some "/5", []⟩, "/5", by decide, by decide, by decide, rfl,
      by decide, by decide⟩

/-- C7 counterexample: a redirect chain of exactly 5 redirects whose
final response is 2xx.  The claim says the download succeeds; the code
exhausts its 5 request attempts on the redirects and fails with "too
many redirects" without ever requesting `/5`. -/
theorem download_five_redirects_then_ok_fails :
    RedirectChain exServer "http://redirecting.example/0"
      5 "http://redirecting.example/5" ∧
    exServer "redirecting.example" 80 "/5" = some ⟨200, none, [1, 2, 3]⟩ ∧
    download_file exServer "http://redirecting.example/0" = none := by
  refine ⟨?_, by decide, by decide⟩
  have h0 := exServer_chain_one 0 (by omega)
  have h1 := exServer_chain_one 1 (by omega)
  have h2 := exServer_chain_one 2 (by omega)
  have h3 := exServer_chain_one 3 (by omega)
  have h4 := exServer_chain_one 4 (by omega)
  exact RedirectChain.step h0 (RedirectChain.step h1 (RedirectChain.step h2
    (RedirectChain.step h3 (RedirectChain.step h4
      (RedirectChain.refl "http://redirecting.example/5")))))

/-- Witness for C7 at concrete inputs: from `/1` the chain has 4
redirects and the download succeeds with the body of `/5`; from `/0` it
has 5 redirects and fails. -/
theorem download_redirect_limit_witness :
    download_file exServer "http://redirecting.example/1" = some [1, 2, 3] ∧
    download_file exServer "http://redirecting.example/0" = none := by
  constructor
  · refine (download_redirect_limit exServer).1
      "http://redirecting.example/1" "http://redirecting.example/5" 4
      ⟨200, none, [1, 2, 3]⟩ ?_ (by omega) (by decide) (by decide)
      (by decide) (by decide)
    have h1 := exServer_chain_one 1 (by omega)
    have h2 := exServer_chain_one 2 (by omega)
    have h3 := exServer_chain_one 3 (by omega)
    have h4 := exServer_chain_one 4 (by omega)
    exact RedirectChain.step h1 (RedirectChain.step h2 (RedirectChain.step h3
      (RedirectChain.step h4 (RedirectChain.refl "http://redirecting.example/5"))))
  · refine (download_redirect_limit exServer).2
      "http://redirecting.example/0" "http://redirecting.example/5" ?_
    have h0 := exServer_chain_one 0 (by omega)
    have h1 := exServer_chain_one 1 (by omega)
    have h2 := exServer_chain_one 2 (by omega)
    have h3 := exServer_chain_one 3 (by omega)
    have h4 := exServer_chain_one 4 (by omega)
    exact RedirectChain.step h0 (RedirectChain.step h1 (RedirectChain.step h2
      (RedirectChain.step h3 (RedirectChain.step h4
        (RedirectChain.refl "http://redirecting.example/5")))))

/-! ## Streaming VAD (`src/src/vad/processor.cpp`, `StreamingVadProcessor`) -/

/-- The numeric collaborators of a `StreamingVadProcessor`:
`get_speech_prob` is the inference model (`VadModel::get_speech_prob`),
mapping a normalized window and the opaque model state (type `σ`) to a
probability and a new state; `sinq` models `std::sin` on rationals
(C++ `float` audio is modelled as exact rationals, so the quarter-sine
fade curve is a parameter). -/
structure VadEnv (σ : Type) where
  get_speech_prob : List ℚ → σ → ℚ × σ
  sinq : ℚ → ℚ

/-- The constructor parameters of `StreamingVadProcessor`
(processor.cpp lines 13-37); `sampling_rate` is
`model_->sampling_rate()`. -/
structure VadConfig where
  threshold : ℚ
  sampling_rate : ℕ
  min_speech_duration_ms : ℕ
  min_silence_duration_ms : ℕ
  speech_pad_ms : ℕ
  short_pause_ms : ℕ
  long_pause_ms : ℕ
  user_silence_duration_ms : ℕ
  speech_prob_window : ℕ
deriving DecidableEq, Repr

/-- `window_size_samples_ = 512`. -/
def window_size_samples : ℕ := 512

def min_speech_samples (c : VadConfig) : ℕ :=
  c.sampling_rate * c.min_speech_duration_ms / 1000

def min_silence_samples (c : VadConfig) : ℕ :=
  c.sampling_rate * c.min_silence_duration_ms / 1000

def speech_pad_samples (c : VadConfig) : ℕ :=
  c.sampling_rate * c.speech_pad_ms / 1000

def short_pause_samples (c : VadConfig) : ℕ :=
  min_silence_samples c + c.sampling_rate * c.short_pause_ms / 1000

def long_pause_samples (c : VadConfig) : ℕ :=
  short_pause_samples c + c.sampling_rate * c.long_pause_ms / 1000

def user_silence_samples (c : VadConfig) : ℕ :=
  c.sampling_rate * c.user_silence_duration_ms / 1000

def max_silence_samples (c : VadConfig) : ℕ :=
  c.sampling_rate * (max (c.speech_pad_ms * 2) c.min_silence_duration_ms) / 1000

/-- `speech_prob_window_ = std::max(1, speech_prob_window)`. -/
def speech_prob_window_eff (c : VadConfig) : ℕ :=
  max 1 c.speech_prob_window

/-- The event classes fired through the callbacks. -/
inductive VadEventKind
  | speechStart
  | speechEnd
  | shortPause
  | longPause
  | userSilenceTimeout
deriving DecidableEq, Repr

/-- One fired callback: its class, the payload buffer and the
`times_sec` timestamps (the silence-timeout callback only carries a
time, recorded in `start` with an empty payload). -/
structure VadEvent where
  kind : VadEventKind
  payload : List ℚ
  start : ℚ
  duration : ℚ
deriving DecidableEq, Repr

/-- The mutable state of a `StreamingVadProcessor` (processor.hpp lines
64-78), with the fired callbacks logged in `events`.  The inbound sample
buffer `buffer_` is handled by the window-chunking caller and is not
part of this record; `process_window` never touches it. -/
structure VadState (σ : Type) where
  speech_buffer : List ℚ
  silence_buffer : List ℚ
  silence_pad_buffer : List ℚ
  prob_history : List ℚ
  model_state : σ
  current_sample : ℤ
  active_speech : Bool
  active_long_speech : Bool
  short_pause_fired : Bool
  long_pause_suspended : Bool
  speech_start : ℤ
  user_silence_start : ℤ
  user_silence_timeout_fired : Bool
  events : List VadEvent

/-- A freshly constructed processor over initial model state `st`. -/
def initVad {σ : Type} (st : σ) : VadState σ :=
  { speech_buffer := [], silence_buffer := [], silence_pad_buffer := [],
    prob_history := [], model_state := st, current_sample := 0,
    active_speech := false, active_long_speech := false,
    short_pause_fired := false, long_pause_suspended := false,
    speech_start := 0, user_silence_start := 0,
    user_silence_timeout_fired := false, events := [] }

/-- `apply_fade` (processor.cpp lines 274-290): multiply sample `i` by
`sin(ratio·π/2)` (or one minus it), with the source's float constant
`1.57079632679f` for `π/2`. -/
def apply_fade {σ : Type} (env : VadEnv σ) (audio : List ℚ) (fade_in : Bool) :
    List ℚ :=
  if audio.length ≤ 1 then audio
  else
    audio.mapIdx fun i a =>
      let ratio : ℚ := (i : ℚ) / ((audio.length - 1 : ℕ) : ℚ)
      let curve := env.sinq (ratio * (157079632679 / 100000000000))
      a * (if fade_in then curve else 1 - curve)

/-- `current_time_sec`. -/
def current_time_sec (c : VadConfig) {σ : Type} (s : VadState σ) : ℚ :=
  (s.current_sample : ℚ) / (c.sampling_rate : ℚ)

/-- `times_sec`: start and duration of a payload ending at the current
sample. -/
def times_sec (c : VadConfig) {σ : Type} (s : VadState σ) (audio : List ℚ) :
    ℚ × ℚ :=
  (((s.current_sample - audio.length : ℤ) : ℚ) / (c.sampling_rate : ℚ),
   (audio.length : ℚ) / (c.sampling_rate : ℚ))

/-- `grow_silence_buffer` (processor.cpp lines 171-178): append, then
trim the front to `max_silence_samples`. -/
def grow_silence_buffer (c : VadConfig) {σ : Type} (s : VadState σ)
    (window : List ℚ) : VadState σ :=
  let sb := s.silence_buffer ++ window
  if max_silence_samples c < sb.length then
    { s with silence_buffer := sb.drop (sb.length - max_silence_samples c) }
  else
    { s with silence_buffer := sb }

/-- `fire_speech_start` (processor.cpp lines 180-198). -/
def fire_speech_start {σ : Type} (env : VadEnv σ) (c : VadConfig)
    (s : VadState σ) : VadState σ :=
  let s := { s with active_speech := true }
  let s :=
    if ¬s.active_long_speech then
      let start_padding := min (speech_pad_samples c) s.silence_buffer.length
      { s with
        active_long_speech := true,
        silence_pad_buffer :=
          apply_fade env
            (s.silence_buffer.drop (s.silence_buffer.length - start_padding))
            true }
    else s
  let s := { s with silence_buffer := [] }
  let t := times_sec c s s.silence_pad_buffer
  { s with events := s.events ++
      [⟨VadEventKind.speechStart, s.silence_pad_buffer, t.1, t.2⟩] }

/-- `fire_speech_end` (processor.cpp lines 200-225). -/
def fire_speech_end (c : VadConfig) {σ : Type} (s : VadState σ) : VadState σ :=
  let s := { s with active_speech := false }
  let s := if ¬s.active_long_speech then { s with speech_buffer := [] } else s
  let s := { s with
    short_pause_fired := false,
    user_silence_start := s.current_sample - s.silence_buffer.length,
    user_silence_timeout_fired := false }
  let start_offset : ℤ := s.speech_start - s.current_sample
  let end_offset : ℤ := -(s.silence_buffer.length : ℤ)
  let start_index : ℤ := max 0 ((s.speech_buffer.length : ℤ) + start_offset)
  let end_index : ℤ := max 0 ((s.speech_buffer.length : ℤ) + end_offset)
  let buffer :=
    if start_index < end_index then
      (s.speech_buffer.take end_index.toNat).drop start_index.toNat
    else []
  let t := times_sec c s buffer
  { s with events := s.events ++ [⟨VadEventKind.speechEnd, buffer, t.1, t.2⟩] }

/-- `fire_short_pause` (processor.cpp lines 227-244): pad, speech slice
trimmed of the trailing silence, faded-out silence. -/
def fire_short_pause {σ : Type} (env : VadEnv σ) (c : VadConfig)
    (s : VadState σ) : VadState σ :=
  let silence_length := s.silence_buffer.length
  let silence_postfix := apply_fade env s.silence_buffer false
  let buffer := s.silence_pad_buffer ++
    (if silence_length < s.speech_buffer.length then
      s.speech_buffer.take (s.speech_buffer.length - silence_length)
    else []) ++ silence_postfix
  let t := times_sec c s buffer
  { s with
    events := s.events ++ [⟨VadEventKind.shortPause, buffer, t.1, t.2⟩],
    short_pause_fired := true }

/-- `fire_long_pause` (processor.cpp lines 246-265): same payload shape
as the short pause; clears the utterance. -/
def fire_long_pause {σ : Type} (env : VadEnv σ) (c : VadConfig)
    (s : VadState σ) : VadState σ :=
  let silence_length := s.silence_buffer.length
  let silence_postfix := apply_fade env s.silence_buffer false
  let buffer := s.silence_pad_buffer ++
    (if silence_length < s.speech_buffer.length then
      s.speech_buffer.take (s.speech_buffer.length - silence_length)
    else []) ++ silence_postfix
  let t := times_sec c s buffer
  { s with
    events := s.events ++ [⟨VadEventKind.longPause, buffer, t.1, t.2⟩],
    short_pause_fired := false,
    active_long_speech := false,
    speech_buffer := [] }

/-- `fire_user_silence_timeout` (processor.cpp lines 267-272). -/
def fire_user_silence_timeout (c : VadConfig) {σ : Type} (s : VadState σ) :
    VadState σ :=
  { s with
    events := s.events ++
      [⟨VadEventKind.userSilenceTimeout, [], current_time_sec c s, 0⟩],
    user_silence_timeout_fired := true }

/-- `get_smoothed_prob` (processor.cpp lines 84-114): normalize peak
amplitude into [0.01, 1], query the model, and take the trailing
weighted mean (weights 1..N) over the probability history. -/
def get_smoothed_prob {σ : Type} (env : VadEnv σ) (c : VadConfig)
    (window : List ℚ) (s : VadState σ) : ℚ × VadState σ :=
  let max_amp := window.foldl (fun m v => max m |v|) 0
  let normalized :=
    if (1 < max_amp ∨ max_amp < 1 / 100) ∧ 0 < max_amp then
      window.map (· / max_amp)
    else window
  let r := env.get_speech_prob normalized s.model_state
  let hist := s.prob_history ++ [r.1]
  let hist := if speech_prob_window_eff c < hist.length then hist.drop 1 else hist
  let s := { s with prob_history := hist, model_state := r.2 }
  if hist.length ≤ 1 then (r.1, s)
  else
    let weighted_sum := (hist.enum.map fun p => p.2 * ((p.1 + 1 : ℕ) : ℚ)).sum
    let weight_total := (hist.enum.map fun p => ((p.1 + 1 : ℕ) : ℚ)).sum
    (weighted_sum / weight_total, s)

/-- The buffer-maintenance part of `process_window`
(processor.cpp lines 121-140). -/
def updateBuffers (c : VadConfig) {σ : Type} (is_speech_frame : Bool)
    (window : List ℚ) (s : VadState σ) : VadState σ :=
  if s.active_long_speech then
    let s := { s with speech_buffer := s.speech_buffer ++ window }
    if is_speech_frame then
      if ¬s.silence_buffer.isEmpty then { s with silence_buffer := [] } else s
    else grow_silence_buffer c s window
  else
    if is_speech_frame then { s with speech_buffer := s.speech_buffer ++ window }
    else
      let s :=
        if ¬s.speech_buffer.isEmpty then
          let s := grow_silence_buffer c s s.speech_buffer
          { s with speech_buffer := [] }
        else s
      grow_silence_buffer c s window

/-- The speech-end / user-silence checks of the silence branch of
`process_window` (processor.cpp lines 149-157). -/
def fireSilenceChecks (c : VadConfig) {σ : Type} (s : VadState σ) : VadState σ :=
  if s.active_speech then
    if min_silence_samples c ≤ s.silence_buffer.length then
      fire_speech_end c s
    else s
  else
    if ¬s.user_silence_timeout_fired ∧
        (user_silence_samples c : ℤ) < s.current_sample - s.user_silence_start
        then
      fire_user_silence_timeout c s
    else s

/-- The short/long-pause checks of the silence branch of
`process_window` (processor.cpp lines 158-167). -/
def firePauseChecks {σ : Type} (env : VadEnv σ) (c : VadConfig)
    (s : VadState σ) : VadState σ :=
  if s.active_long_speech then
    let s :=
      if ¬s.short_pause_fired ∧
          short_pause_samples c ≤ s.silence_buffer.length then
        fire_short_pause env c s
      else s
    if ¬s.long_pause_suspended ∧
        long_pause_samples c ≤ s.silence_buffer.length then
      fire_long_pause env c s
    else s
  else s

/-- The event-firing part of `process_window`
(processor.cpp lines 142-168). -/
def fireEvents {σ : Type} (env : VadEnv σ) (c : VadConfig)
    (is_speech_frame : Bool) (window_len : ℕ) (s : VadState σ) : VadState σ :=
  if is_speech_frame then
    if ¬s.active_speech then
      let s := { s with speech_start := s.current_sample - window_len }
      if min_speech_samples c ≤ s.speech_buffer.length then
        fire_speech_start env c s
      else s
    else s
  else
    firePauseChecks env c (fireSilenceChecks c s)

/-- `process_window` (processor.cpp lines 116-169). -/
def process_window {σ : Type} (env : VadEnv σ) (c : VadConfig)
    (window : List ℚ) (s : VadState σ) : VadState σ :=
  let r := get_smoothed_prob env c window s
  let is_speech_frame := decide (c.threshold < r.1)
  let s := { r.2 with current_sample := r.2.current_sample + window.length }
  let s := updateBuffers c is_speech_frame window s
  fireEvents env c is_speech_frame window.length s

/-- The processor run on a sequence of 512-sample windows, as chunked by
`process_samples`. -/
def runWindows {σ : Type} (env : VadEnv σ) (c : VadConfig) (st : σ)
    (ws : List (List ℚ)) : VadState σ :=
  ws.foldl (fun s w => process_window env c w s) (initVad st)

/-- The classes of the fired events, in firing order. -/
def kinds {σ : Type} (s : VadState σ) : List VadEventKind :=
  s.events.map fun e => e.kind

/-! ## Theorems: C6 (short-pause uniqueness) -/

/-- The property as claimed: between any two `short_pause` events there
is a `long_pause` event, i.e. two `short_pause` events never fall into
the same utterance (an utterance is a contiguous `active_long_speech`
period, ended exactly by a long pause). -/
def short_pause_once_per_utterance (ks : List VadEventKind) : Prop :=
  ∀ i j : Fin ks.length, i < j →
    ks.get i = VadEventKind.shortPause → ks.get j = VadEventKind.shortPause →
    ∃ m : Fin ks.length, i < m ∧ m < j ∧ ks.get m = VadEventKind.longPause

/-- An inference collaborator whose opaque state counts the processed
windows and reports speech exactly on windows 0 and 2 (the ONNX model
keeps internal state in the same way). -/
def exEnv : VadEnv ℕ :=
  ⟨fun _ n => (if n = 0 ∨ n = 2 then 1 else 0, n + 1), fun _ => 0⟩

/-- threshold 1/2, 16 kHz, 1 ms speech/silence minima, 100 ms pad, 1 ms
short-pause offset, 40 ms long-pause offset, 10 s user-silence, smoothing
window 1.  Derived: `min_speech = min_silence = 16`, `short_pause = 32`,
`long_pause = 672`, `max_silence = 3200` samples. -/
def exCfg : VadConfig :=
  ⟨1/2, 16000, 1, 1, 100, 1, 40, 10000, 1⟩

/-- One 512-sample window. -/
def exWindow : List ℚ := List.replicate 512 0

/-- Five windows: speech, silence, speech, silence, silence (as
classified by `exEnv`).  The silences after each speech run reach the
short-pause bound inside one window; the long-pause bound is reached at
window 5. -/
def exWindows : List (List ℚ) :=
  [exWindow, exWindow, exWindow, exWindow, exWindow]

/-- C6 counterexample: in the run of `exWindows` the utterance spans all
five windows (the single `long_pause` is the last event), yet
`short_pause` fires twice — once after each intra-utterance silence,
because `fire_speech_end` resets `short_pause_fired_`.  The claimed
at-most-once-per-utterance property is false. -/
theorem short_pause_twice_per_utterance :
    kinds (runWindows exEnv exCfg 0 exWindows) =
      [VadEventKind.speechStart, VadEventKind.speechEnd,
       VadEventKind.shortPause, VadEventKind.speechStart,
       VadEventKind.speechEnd, VadEventKind.shortPause,
       VadEventKind.longPause] ∧
    ¬ short_pause_once_per_utterance (kinds (runWindows exEnv exCfg 0 exWindows)) := by
  have h : kinds (runWindows exEnv exCfg 0 exWindows) =
      [VadEventKind.speechStart, VadEventKind.speechEnd,
       VadEventKind.shortPause, VadEventKind.speechStart,
       VadEventKind.speechEnd, VadEventKind.shortPause,
       VadEventKind.longPause] := by
    with_unfolding_all rfl
  refine ⟨h, ?_⟩
  rw [h]
  unfold short_pause_once_per_utterance
  decide

/-- The effect of one fired event on `short_pause_fired_`:
`fire_short_pause` sets it, `fire_speech_end` and `fire_long_pause`
clear it, the other callbacks leave it alone. -/
def firedUpd (b : Bool) (k : VadEventKind) : Bool :=
  match k with
  | VadEventKind.shortPause => true
  | VadEventKind.speechEnd => false
  | VadEventKind.longPause => false
  | _ => b

/-- The value of `short_pause_fired_` determined by the event log. -/
def firedOf (ks : List VadEventKind) : Bool :=
  ks.foldl firedUpd false

/-- Between any two `short_pause` events there is a `speech_end` or a
`long_pause` event. -/
def SepShorts (ks : List VadEventKind) : Prop :=
  ∀ i j : ℕ, i < j →
    ks.get? i = some VadEventKind.shortPause →
    ks.get? j = some VadEventKind.shortPause →
    ∃ m : ℕ, i < m ∧ m < j ∧
      (ks.get? m = some VadEventKind.speechEnd ∨
       ks.get? m = some VadEventKind.longPause)

/-- Every `short_pause` event is followed by a `speech_end` or a
`long_pause` event. -/
def ClosedShorts (ks : List VadEventKind) : Prop :=
  ∀ i : ℕ, ks.get? i = some VadEventKind.shortPause →
    ∃ m : ℕ, i < m ∧
      (ks.get? m = some VadEventKind.speechEnd ∨
       ks.get? m = some VadEventKind.longPause)

/-- The log invariant: separation, and when the fired flag is clear
every short pause has already been answered by an end or long pause. -/
def GoodLog (ks : List VadEventKind) : Prop :=
  SepShorts ks ∧ (firedOf ks = false → ClosedShorts ks)

theorem firedOf_append_one (ks : List VadEventKind) (k : VadEventKind) :
    firedOf (ks ++ [k]) = firedUpd (firedOf ks) k := by
  simp [firedOf, List.foldl_append]

theorem get?_append_one_lt {α : Type} (l : List α) (a : α) {i : ℕ}
    (h : i < l.length) : (l ++ [a]).get? i = l.get? i := by
  rw [List.get?_append h]

theorem get?_append_one_self {α : Type} (l : List α) (a : α) :
    (l ++ [a]).get? l.length = some a := by
  rw [List.get?_append_right (le_refl _)]
  simp

theorem get?_lt_length {α : Type} {l : List α} {i : ℕ} {a : α}
    (h : l.get? i = some a) : i < l.length := by
  by_contra hc
  rw [List.get?_eq_none.mpr (by omega)] at h
  exact Option.noConfusion h

/-- Appending one event preserves the log invariant, provided a
`short_pause` is only appended while the fired flag is clear. -/
theorem goodLog_append (ks : List VadEventKind) (k : VadEventKind)
    (h : GoodLog ks)
    (hk : k = VadEventKind.shortPause → firedOf ks = false) :
    GoodLog (ks ++ [k]) := by
  obtain ⟨hsep, hclosed⟩ := h
  constructor
  · intro i j hij hi hj
    have hjlen : j < ks.length + 1 := by
      have := get?_lt_length hj
      simpa using this
    by_cases hjlt : j < ks.length
    · rw [get?_append_one_lt ks k hjlt] at hj
      rw [get?_append_one_lt ks k (lt_trans hij hjlt)] at hi
      obtain ⟨m, h1, h2, h3⟩ := hsep i j hij hi hj
      exact ⟨m, h1, h2, by rw [get?_append_one_lt ks k (lt_trans h2 hjlt)]; exact h3⟩
    · have hjeq : j = ks.length := by omega
      subst hjeq
      rw [get?_append_one_self] at hj
      have hks : k = VadEventKind.shortPause := Option.some.inj hj
      have hilt : i < ks.length := hij
      rw [get?_append_one_lt ks k hilt] at hi
      obtain ⟨m, h1, h2⟩ := hclosed (hk hks) i hi
      have hmlt : m < ks.length := by
        rcases h2 with h2 | h2 <;> exact get?_lt_length h2
      refine ⟨m, h1, hmlt, ?_⟩
      rw [get?_append_one_lt ks k hmlt]
      exact h2
  · intro hf i hi
    rw [firedOf_append_one] at hf
    have hilen : i < ks.length + 1 := by
      have := get?_lt_length hi
      simpa using this
    cases k with
    | shortPause => simp [firedUpd] at hf
    | speechEnd =>
        have hilt : i < ks.length := by
          by_contra hc
          have : i = ks.length := by omega
          subst this
          rw [get?_append_one_self] at hi
          exact VadEventKind.noConfusion (Option.some.inj hi)
        exact ⟨ks.length, hilt, Or.inl (get?_append_one_self ks _)⟩
    | longPause =>
        have hilt : i < ks.length := by
          by_contra hc
          have : i = ks.length := by omega
          subst this
          rw [get?_append_one_self] at hi
          exact VadEventKind.noConfusion (Option.some.inj hi)
        exact ⟨ks.length, hilt, Or.inr (get?_append_one_self ks _)⟩
    | speechStart =>
        have hfks : firedOf ks = false := hf
        have hilt : i < ks.length := by
          by_contra hc
          have : i = ks.length := by omega
          subst this
          rw [get?_append_one_self] at hi
          exact VadEventKind.noConfusion (Option.some.inj hi)
        rw [get?_append_one_lt ks _ hilt] at hi
        obtain ⟨m, h1, h2⟩ := hclosed hfks i hi
        have hmlt : m < ks.length := by
          rcases h2 with h2 | h2 <;> exact get?_lt_length h2
        refine ⟨m, h1, ?_⟩
        rw [get?_append_one_lt ks _ hmlt]
        exact h2
    | userSilenceTimeout =>
        have hfks : firedOf ks = false := hf
        have hilt : i < ks.length := by
          by_contra hc
          have : i = ks.length := by omega
          subst this
          rw [get?_append_one_self] at hi
          exact VadEventKind.noConfusion (Option.some.inj hi)
        rw [get?_append_one_lt ks _ hilt] at hi
        obtain ⟨m, h1, h2⟩ := hclosed hfks i hi
        have hmlt : m < ks.length := by
          rcases h2 with h2 | h2 <;> exact get?_lt_length h2
        refine ⟨m, h1, ?_⟩
        rw [get?_append_one_lt ks _ hmlt]
        exact h2

/-- The processor invariant behind short-pause separation:
`short_pause_fired_` agrees with the value determined by the event log,
and the log is well separated. -/
def VadInv {σ : Type} (s : VadState σ) : Prop :=
  s.short_pause_fired = firedOf (kinds s) ∧ GoodLog (kinds s)

theorem goodLog_nil : GoodLog [] := by
  refine ⟨?_, ?_⟩
  · intro i j _ hi _
    rw [List.get?_eq_none.mpr (by simp)] at hi
    exact Option.noConfusion hi
  · intro _ i hi
    rw [List.get?_eq_none.mpr (by simp)] at hi
    exact Option.noConfusion hi

theorem vadInv_init {σ : Type} (st : σ) : VadInv (initVad st) :=
  ⟨rfl, goodLog_nil⟩

theorem kinds_fire_speech_start {σ : Type} (env : VadEnv σ) (c : VadConfig)
    (s : VadState σ) :
    kinds (fire_speech_start env c s) = kinds s ++ [VadEventKind.speechStart] ∧
    (fire_speech_start env c s).short_pause_fired = s.short_pause_fired := by
  cases hb : s.active_long_speech <;> simp [fire_speech_start, kinds, hb]

theorem kinds_fire_speech_end {σ : Type} (c : VadConfig) (s : VadState σ) :
    kinds (fire_speech_end c s) = kinds s ++ [VadEventKind.speechEnd] ∧
    (fire_speech_end c s).short_pause_fired = false := by
  cases hb : s.active_long_speech <;> simp [fire_speech_end, kinds, hb]

theorem kinds_fire_short_pause {σ : Type} (env : VadEnv σ) (c : VadConfig)
    (s : VadState σ) :
    kinds (fire_short_pause env c s) = kinds s ++ [VadEventKind.shortPause] ∧
    (fire_short_pause env c s).short_pause_fired = true := by
  unfold fire_short_pause
  simp [kinds]

theorem kinds_fire_long_pause {σ : Type} (env : VadEnv σ) (c : VadConfig)
    (s : VadState σ) :
    kinds (fire_long_pause env c s) = kinds s ++ [VadEventKind.longPause] ∧
    (fire_long_pause env c s).short_pause_fired = false := by
  unfold fire_long_pause
  simp [kinds]

theorem kinds_fire_user_silence_timeout {σ : Type} (c : VadConfig)
    (s : VadState σ) :
    kinds (fire_user_silence_timeout c s) =
      kinds s ++ [VadEventKind.userSilenceTimeout] ∧
    (fire_user_silence_timeout c s).short_pause_fired = s.short_pause_fired := by
  unfold fire_user_silence_timeout
  simp [kinds]

theorem vadInv_fire_speech_start {σ : Type} (env : VadEnv σ) (c : VadConfig)
    {s : VadState σ} (h : VadInv s) : VadInv (fire_speech_start env c s) := by
  obtain ⟨hk, hf⟩ := kinds_fire_speech_start env c s
  refine ⟨?_, ?_⟩
  · rw [hk, hf, firedOf_append_one, h.1]
    rfl
  · rw [hk]
    exact goodLog_append _ _ h.2 (fun hcontra => VadEventKind.noConfusion hcontra)

theorem vadInv_fire_speech_end {σ : Type} (c : VadConfig)
    {s : VadState σ} (h : VadInv s) : VadInv (fire_speech_end c s) := by
  obtain ⟨hk, hf⟩ := kinds_fire_speech_end c s
  refine ⟨?_, ?_⟩
  · rw [hk, hf, firedOf_append_one]
    rfl
  · rw [hk]
    exact goodLog_append _ _ h.2 (fun hcontra => VadEventKind.noConfusion hcontra)

theorem vadInv_fire_short_pause {σ : Type} (env : VadEnv σ) (c : VadConfig)
    {s : VadState σ} (h : VadInv s) (hfired : s.short_pause_fired = false) :
    VadInv (fire_short_pause env c s) := by
  obtain ⟨hk, hf⟩ := kinds_fire_short_pause env c s
  have hlog : firedOf (kinds s) = false := by rw [← h.1]; exact hfired
  refine ⟨?_, ?_⟩
  · rw [hk, hf, firedOf_append_one]
    rfl
  · rw [hk]
    exact goodLog_append _ _ h.2 (fun _ => hlog)

theorem vadInv_fire_long_pause {σ : Type} (env : VadEnv σ) (c : VadConfig)
    {s : VadState σ} (h : VadInv s) : VadInv (fire_long_pause env c s) := by
  obtain ⟨hk, hf⟩ := kinds_fire_long_pause env c s
  refine ⟨?_, ?_⟩
  · rw [hk, hf, firedOf_append_one]
    rfl
  · rw [hk]
    exact goodLog_append _ _ h.2 (fun hcontra => VadEventKind.noConfusion hcontra)

theorem vadInv_fire_user_silence_timeout {σ : Type} (c : VadConfig)
    {s : VadState σ} (h : VadInv s) : VadInv (fire_user_silence_timeout c s) := by
  obtain ⟨hk, hf⟩ := kinds_fire_user_silence_timeout c s
  refine ⟨?_, ?_⟩
  · rw [hk, hf, firedOf_append_one, h.1]
    rfl
  · rw [hk]
    exact goodLog_append _ _ h.2 (fun hcontra => VadEventKind.noConfusion hcontra)

theorem vadInv_of_same {σ : Type} {s t : VadState σ} (h : VadInv s)
    (he : t.events = s.events)
    (hf : t.short_pause_fired = s.short_pause_fired) : VadInv t := by
  unfold VadInv kinds at h ⊢
  rw [he, hf]
  exact h

theorem updateBuffers_events {σ : Type} (c : VadConfig) (b : Bool)
    (w : List ℚ) (s : VadState σ) :
    (updateBuffers c b w s).events = s.events ∧
    (updateBuffers c b w s).short_pause_fired = s.short_pause_fired := by
  unfold updateBuffers grow_silence_buffer
  dsimp only
  split_ifs <;> exact ⟨rfl, rfl⟩

theorem vadInv_updateBuffers {σ : Type} (c : VadConfig)
    (b : Bool) (w : List ℚ) {s : VadState σ} (h : VadInv s) :
    VadInv (updateBuffers c b w s) :=
  vadInv_of_same h (updateBuffers_events c b w s).1
    (updateBuffers_events c b w s).2

theorem vadInv_fireSilenceChecks {σ : Type} (c : VadConfig)
    {s : VadState σ} (h : VadInv s) : VadInv (fireSilenceChecks c s) := by
  unfold fireSilenceChecks
  split
  · split
    · exact vadInv_fire_speech_end c h
    · exact h
  · split
    · exact vadInv_fire_user_silence_timeout c h
    · exact h

theorem vadInv_firePauseChecks {σ : Type} (env : VadEnv σ) (c : VadConfig)
    {s : VadState σ} (h : VadInv s) : VadInv (firePauseChecks env c s) := by
  unfold firePauseChecks
  dsimp only
  split
  · have h2 : VadInv (if ¬s.short_pause_fired = true ∧
        short_pause_samples c ≤ s.silence_buffer.length then
        fire_short_pause env c s else s) := by
      split
      · rename_i hcond
        exact vadInv_fire_short_pause env c h (by
          have h3 := hcond.1
          simpa using h3)
      · exact h
    generalize hgen : (if ¬s.short_pause_fired = true ∧
        short_pause_samples c ≤ s.silence_buffer.length then
        fire_short_pause env c s else s) = t at h2 ⊢
    split
    · exact vadInv_fire_long_pause env c h2
    · exact h2
  · exact h

theorem vadInv_fireEvents {σ : Type} (env : VadEnv σ) (c : VadConfig)
    (b : Bool) (wlen : ℕ) {s : VadState σ} (h : VadInv s) :
    VadInv (fireEvents env c b wlen s) := by
  unfold fireEvents
  dsimp only
  split
  · split
    · split
      · exact vadInv_fire_speech_start env c (vadInv_of_same h rfl rfl)
      · exact vadInv_of_same h rfl rfl
    · exact h
  · exact vadInv_firePauseChecks env c (vadInv_fireSilenceChecks c h)

theorem get_smoothed_prob_events {σ : Type} (env : VadEnv σ) (c : VadConfig)
    (w : List ℚ) (s : VadState σ) :
    (get_smoothed_prob env c w s).2.events = s.events ∧
    (get_smoothed_prob env c w s).2.short_pause_fired = s.short_pause_fired := by
  constructor <;>
  · unfold get_smoothed_prob
    dsimp only
    repeat' split
    all_goals rfl

theorem vadInv_process_window {σ : Type} (env : VadEnv σ) (c : VadConfig)
    (w : List ℚ) {s : VadState σ} (h : VadInv s) :
    VadInv (process_window env c w s) := by
  unfold process_window
  dsimp only
  refine vadInv_fireEvents env c _ _ (vadInv_updateBuffers c _ _ ?_)
  refine vadInv_of_same h ?_ ?_
  · exact (get_smoothed_prob_events env c w s).1
  · exact (get_smoothed_prob_events env c w s).2

theorem vadInv_runWindows {σ : Type} (env : VadEnv σ) (c : VadConfig)
    (st : σ) (ws : List (List ℚ)) : VadInv (runWindows env c st ws) := by
  unfold runWindows
  suffices h : ∀ s : VadState σ, VadInv s →
      VadInv (ws.foldl (fun s w => process_window env c w s) s) from
    h (initVad st) (vadInv_init st)
  induction ws with
  | nil => intro s hs; exact hs
  | cons w rest ih => intro s hs; exact ih _ (vadInv_process_window env c w hs)

/-- C6 (amended): in every run of the processor, between any two
`short_pause` events there is a `speech_end` or `long_pause` event —
`short_pause` fires at most once per silence stretch, because
`fire_speech_end` resets `short_pause_fired_`; it is not limited to once
per utterance. -/
theorem short_pause_separated (σ : Type) (env : VadEnv σ) (c : VadConfig)
    (st : σ) (ws : List (List ℚ)) :
    SepShorts (kinds (runWindows env c st ws)) :=
  (vadInv_runWindows env c st ws).2.1

/-! ## Conversation controller generation flags
(`src/src/sip/call.cpp`, `on_vad_short_pause` / `on_vad_long_pause`)

The two VAD pause handlers reserve the `start_in_flight_` /
`commit_in_flight_` flags under `generation_mutex_` and dispatch their
bodies to worker threads.  The model below is a small-step transition
system over the lock-protected regions: one step per atomic region,
nondeterministic branch outcomes (media checks, transcription results,
exceptions, commit responses) carried by the step labels.  Backend RPC
windows are identified with the program-counter values during which the
corresponding HTTP request is outstanding. -/

/-- Program counter of the asynchronous body of `on_vad_short_pause`
(call.cpp lines 509-552). -/
inductive SPC
  | checkMedia      -- the media_active check at entry (line 511)
  | rollbackCheck   -- the lock region of rollback_session (lines 821-830)
  | rollbackRpc     -- the rollback RPC (line 834)
  | transcribeRpc   -- transcribe_audio (line 520)
  | checkMedia2     -- the second media check (line 530)
  | startRpc        -- start_session_text, POST /start outstanding (line 538)
  | setSpec         -- lock: spec_active, short_pause_handled, set_state (539-542)
  | tail            -- trailing lock: start_in_flight = false (lines 550-551)
deriving DecidableEq, Repr

/-- Program counter of the asynchronous body of `on_vad_long_pause`
(call.cpp lines 578-677). -/
inductive LPC
  | suspend         -- set_long_pause_suspended(true) (line 580)
  | checkMedia1     -- media check (line 583)
  | waitStart       -- the 200 x 10 ms busy-wait for start_in_flight (595-603)
  | checkMedia2     -- media check (line 605)
  | readSpec        -- lock: has_start = spec_active (lines 617-621)
  | transcribeRpc   -- transcribe_audio (line 623)
  | checkMedia3     -- media check (line 632)
  | startRpc        -- start_session_text, POST /start outstanding (line 643)
  | setSpec         -- lock: spec_active, short_pause_handled, set_state (644-647)
  | checkMedia4     -- media check (line 649)
  | setCommitState  -- set_state(CommitGenerate); user_speaking = false (660-661)
  | commitRpc       -- commit_session, POST /commit outstanding (line 662)
  | afterCommit     -- lock: spec_active = false, long_pause_handled = true (663-665)
  | tail            -- trailing lock: commit_in_flight = false; unsuspend (672-676)
deriving DecidableEq, Repr

/-- Outcome of the commit RPC as processed by `SipCall::commit_session`
(call.cpp lines 778-818). -/
inductive CommitOutcome
  | normal       -- 2xx without metadata.SESSION_ENDS
  | sessionEnds  -- metadata.SESSION_ENDS = true
  | error        -- the request threw; caught inside commit_session
deriving DecidableEq, Repr

/-- The generation state of one `SipCall` (the fields protected by
`generation_mutex_`, call.hpp lines 117-123, plus the call state and the
long-pause suspension), together with the program counters of the two
handler bodies (`none` = no body outstanding). -/
structure CtrlState where
  start_in_flight : Bool
  commit_in_flight : Bool
  spec_active : Bool
  short_pause_handled : Bool
  long_pause_handled : Bool
  finished : Bool
  user_speaking : Bool
  long_pause_suspended : Bool
  state : CallState
  shortThread : Option SPC
  longThread : Option LPC
deriving DecidableEq, Repr

/-- A call right after `open_media`. -/
def initCtrl : CtrlState :=
  { start_in_flight := false, commit_in_flight := false, spec_active := false,
    short_pause_handled := false, long_pause_handled := false,
    finished := false, user_speaking := false, long_pause_suspended := false,
    state := CallState.WaitForUser, shortThread := none, longThread := none }

/-- Transition labels.  `ok` carries the nondeterministic outcome of the
step (media still active / transcription usable / RPC did not throw);
`longWaitTimeout` is the busy-wait giving up after its 200 iterations. -/
inductive CtrlLabel
  | shortPauseEvent
  | longPauseEvent
  | shortStep (ok : Bool)
  | longStep (ok : Bool)
  | longWaitObserve
  | longWaitTimeout
  | longCommitStep (o : CommitOutcome)
deriving DecidableEq, Repr

/-- The early-exit tail of the long body: release `commit_in_flight_`
and unsuspend long pauses (shared by every return path). -/
def longExit (s : CtrlState) : CtrlState :=
  { s with commit_in_flight := false, long_pause_suspended := false,
           longThread := none }

/-- One atomic step of the controller.  Labels that are not enabled
leave the state unchanged. -/
def ctrlStep (s : CtrlState) : CtrlLabel → CtrlState
  | CtrlLabel.shortPauseEvent =>
      if ¬s.start_in_flight ∧ ¬s.commit_in_flight ∧ ¬s.short_pause_handled ∧
          ¬s.long_pause_handled ∧ s.shortThread = none then
        { s with start_in_flight := true, shortThread := some SPC.checkMedia }
      else s
  | CtrlLabel.longPauseEvent =>
      if ¬s.commit_in_flight ∧ ¬s.long_pause_handled ∧ s.longThread = none then
        { s with commit_in_flight := true, longThread := some LPC.suspend }
      else s
  | CtrlLabel.shortStep ok =>
      match s.shortThread with
      | some SPC.checkMedia =>
          if ok then { s with shortThread := some SPC.rollbackCheck }
          else { s with start_in_flight := false, shortThread := none }
      | some SPC.rollbackCheck =>
          if s.spec_active ∧ ¬s.commit_in_flight then
            { s with spec_active := false, short_pause_handled := false,
                     start_in_flight := false,
                     shortThread := some SPC.rollbackRpc }
          else { s with shortThread := some SPC.transcribeRpc }
      | some SPC.rollbackRpc =>
          if ok then { s with shortThread := some SPC.transcribeRpc }
          else { s with start_in_flight := false, shortThread := none }
      | some SPC.transcribeRpc =>
          if ok then { s with shortThread := some SPC.checkMedia2 }
          else { s with start_in_flight := false, shortThread := none }
      | some SPC.checkMedia2 =>
          if ok then { s with shortThread := some SPC.startRpc }
          else { s with start_in_flight := false, shortThread := none }
      | some SPC.startRpc =>
          if ok then { s with shortThread := some SPC.setSpec }
          else { s with start_in_flight := false, shortThread := none }
      | some SPC.setSpec =>
          { s with spec_active := true, short_pause_handled := true,
                   state := set_state s.state CallState.SpeculativeGenerate,
                   shortThread := some SPC.tail }
      | some SPC.tail =>
          { s with start_in_flight := false, shortThread := none }
      | none => s
  | CtrlLabel.longStep ok =>
      match s.longThread with
      | some LPC.suspend =>
          { s with long_pause_suspended := true,
                   longThread := some LPC.checkMedia1 }
      | some LPC.checkMedia1 =>
          if ok then { s with longThread := some LPC.waitStart }
          else longExit s
      | some LPC.waitStart => s
      | some LPC.checkMedia2 =>
          if ok then { s with longThread := some LPC.readSpec }
          else longExit s
      | some LPC.readSpec =>
          if s.spec_active then { s with longThread := some LPC.checkMedia4 }
          else { s with longThread := some LPC.transcribeRpc }
      | some LPC.transcribeRpc =>
          if ok then { s with longThread := some LPC.checkMedia3 }
          else longExit s
      | some LPC.checkMedia3 =>
          if ok then { s with longThread := some LPC.startRpc }
          else longExit s
      | some LPC.startRpc =>
          if ok then { s with longThread := some LPC.setSpec }
          else longExit s
      | some LPC.setSpec =>
          { s with spec_active := true, short_pause_handled := true,
                   state := set_state s.state CallState.SpeculativeGenerate,
                   longThread := some LPC.checkMedia4 }
      | some LPC.checkMedia4 =>
          if ok then { s with longThread := some LPC.setCommitState }
          else longExit s
      | some LPC.setCommitState =>
          { s with state := set_state s.state CallState.CommitGenerate,
                   user_speaking := false,
                   longThread := some LPC.commitRpc }
      | some LPC.commitRpc => s
      | some LPC.afterCommit =>
          { s with spec_active := false, long_pause_handled := true,
                   longThread := some LPC.tail }
      | some LPC.tail => longExit s
      | none => s
  | CtrlLabel.longWaitObserve =>
      if s.longThread = some LPC.waitStart ∧ s.start_in_flight = false then
        { s with longThread := some LPC.checkMedia2 }
      else s
  | CtrlLabel.longWaitTimeout =>
      if s.longThread = some LPC.waitStart then
        { s with longThread := some LPC.checkMedia2 }
      else s
  | CtrlLabel.longCommitStep o =>
      match s.longThread with
      | some LPC.commitRpc =>
          match o with
          | CommitOutcome.normal =>
              if ¬s.finished then
                { s with state := set_state s.state CallState.WaitForUser,
                         longThread := some LPC.afterCommit }
              else { s with longThread := some LPC.afterCommit }
          | CommitOutcome.sessionEnds =>
              { s with finished := true,
                       state := set_state s.state CallState.Finished,
                       longThread := some LPC.afterCommit }
          | CommitOutcome.error =>
              { s with state := set_state s.state CallState.WaitForUser,
                       longThread := some LPC.afterCommit }
      | _ => s

/-- The controller state reached from a fresh call by a trace of atomic
steps. -/
def runCtrl (ls : List CtrlLabel) : CtrlState :=
  ls.foldl ctrlStep initCtrl

/-- The start RPC of the short-pause body is outstanding. -/
def shortStartRpcActive (s : CtrlState) : Bool :=
  s.shortThread = some SPC.startRpc

/-- The start RPC issued by the long-pause body is outstanding. -/
def longStartRpcActive (s : CtrlState) : Bool :=
  s.longThread = some LPC.startRpc

/-- The commit RPC is outstanding. -/
def commitRpcActive (s : CtrlState) : Bool :=
  s.longThread = some LPC.commitRpc

/-- At most one of the backend start/commit RPCs is outstanding. -/
def atMostOneGenerationRpc (s : CtrlState) : Prop :=
  ¬(shortStartRpcActive s = true ∧ longStartRpcActive s = true) ∧
  ¬(shortStartRpcActive s = true ∧ commitRpcActive s = true) ∧
  ¬(longStartRpcActive s = true ∧ commitRpcActive s = true)

/-- The long body is past its busy-wait. -/
def LPC.postWait : LPC → Bool
  | LPC.suspend => false
  | LPC.checkMedia1 => false
  | LPC.waitStart => false
  | _ => true

/-- The inductive invariant: a live short body holds
`start_in_flight_`, a live long body holds `commit_in_flight_`, the
rollback inside the short body never fires (its guard `spec_active_`
is false there, so `rollbackRpc` is unreachable and `start_in_flight_`
is not reset mid-body), `spec_active_` implies `short_pause_handled_`,
and while the long body is past its busy-wait no short body exists. -/
def ctrlInvB (s : CtrlState) : Bool :=
  (s.shortThread.isSome → s.start_in_flight = true) ∧
  (s.longThread.isSome → s.commit_in_flight = true) ∧
  (s.shortThread ≠ some SPC.rollbackRpc) ∧
  ((s.shortThread = some SPC.checkMedia ∨ s.shortThread = some SPC.rollbackCheck) →
    s.spec_active = false) ∧
  (s.spec_active = true → s.short_pause_handled = true) ∧
  (∀ pc : LPC, s.longThread = some pc → pc.postWait = true → s.shortThread = none)

def CtrlInv (s : CtrlState) : Prop :=
  (s.shortThread.isSome → s.start_in_flight = true) ∧
  (s.longThread.isSome → s.commit_in_flight = true) ∧
  (s.shortThread ≠ some SPC.rollbackRpc) ∧
  ((s.shortThread = some SPC.checkMedia ∨ s.shortThread = some SPC.rollbackCheck) →
    s.spec_active = false) ∧
  (s.spec_active = true → s.short_pause_handled = true) ∧
  (∀ pc : LPC, s.longThread = some pc → pc.postWait = true → s.shortThread = none)

theorem ctrlInv_step (s : CtrlState) (l : CtrlLabel)
    (hl : l ≠ CtrlLabel.longWaitTimeout) (h : CtrlInv s) :
    CtrlInv (ctrlStep s l) := by
  obtain ⟨h1, h2, h3, h4, h5, h6⟩ := h
  cases l <;> simp only [ctrlStep] <;> (repeat' split) <;>
    simp_all [CtrlInv, LPC.postWait, longExit]

theorem ctrlInv_init : CtrlInv initCtrl := by
  refine ⟨?_, ?_, ?_, ?_, ?_, ?_⟩ <;> simp [initCtrl]

theorem ctrlInv_run (ls : List CtrlLabel)
    (h : CtrlLabel.longWaitTimeout ∉ ls) : CtrlInv (runCtrl ls) := by
  rw [runCtrl]
  suffices hgen : ∀ s : CtrlState, CtrlInv s → CtrlInv (ls.foldl ctrlStep s) from
    hgen initCtrl ctrlInv_init
  induction ls with
  | nil => intro s hs; exact hs
  | cons l rest ih =>
      intro s hs
      have hl : l ≠ CtrlLabel.longWaitTimeout := by
        intro he
        exact h (he ▸ List.mem_cons_self l rest)
      have hrest : CtrlLabel.longWaitTimeout ∉ rest := by
        intro he
        exact h (List.mem_cons_of_mem l he)
      exact ih hrest _ (ctrlInv_step s l hl hs)

theorem atMostOne_of_ctrlInv (s : CtrlState) (h : CtrlInv s) :
    atMostOneGenerationRpc s := by
  obtain ⟨h1, h2, h3, h4, h5, h6⟩ := h
  refine ⟨?_, ?_, ?_⟩
  · rintro ⟨ha, hb⟩
    simp only [shortStartRpcActive, decide_eq_true_eq] at ha
    simp only [longStartRpcActive, decide_eq_true_eq] at hb
    have := h6 LPC.startRpc hb rfl
    rw [this] at ha
    exact Option.noConfusion ha
  · rintro ⟨ha, hb⟩
    simp only [shortStartRpcActive, decide_eq_true_eq] at ha
    simp only [commitRpcActive, decide_eq_true_eq] at hb
    have := h6 LPC.commitRpc hb rfl
    rw [this] at ha
    exact Option.noConfusion ha
  · rintro ⟨ha, hb⟩
    simp only [longStartRpcActive, decide_eq_true_eq] at ha
    simp only [commitRpcActive, decide_eq_true_eq] at hb
    rw [ha] at hb
    exact LPC.noConfusion (Option.some.inj hb)

/-- C1 (amended): `start_in_flight_` does not exclude
`commit_in_flight_` (see the counterexample), but the backend RPCs are
exclusive: along every trace of the two VAD pause handlers and their
asynchronous bodies in which the long-pause busy-wait never times out,
at most one of the backend start/commit RPCs is outstanding at any
moment (every prefix of such a trace is such a trace). -/
theorem at_most_one_generation_rpc (ls : List CtrlLabel)
    (h : CtrlLabel.longWaitTimeout ∉ ls) :
    atMostOneGenerationRpc (runCtrl ls) :=
  atMostOne_of_ctrlInv _ (ctrlInv_run ls h)

/-- Witness for C1 at a concrete timeout-free trace. -/
theorem at_most_one_generation_rpc_witness :
    atMostOneGenerationRpc (runCtrl
      [CtrlLabel.shortPauseEvent, CtrlLabel.shortStep true,
       CtrlLabel.longPauseEvent, CtrlLabel.shortStep true,
       CtrlLabel.shortStep true, CtrlLabel.shortStep true]) :=
  at_most_one_generation_rpc
    [CtrlLabel.shortPauseEvent, CtrlLabel.shortStep true,
     CtrlLabel.longPauseEvent, CtrlLabel.shortStep true,
     CtrlLabel.shortStep true, CtrlLabel.shortStep true] (by decide)

/-- C1 counterexample: `on_vad_short_pause` reserves `start_in_flight_`
(call.cpp line 500); before its asynchronous body runs,
`on_vad_long_pause` fires and reserves `commit_in_flight_` — its guard
(line 566) checks `commit_in_flight_` and `long_pause_handled_` but not
`start_in_flight_`.  Both flags are then true at once, so the claimed
flag implication fails in a reachable state. -/
theorem start_and_commit_in_flight_together :
    (runCtrl [CtrlLabel.shortPauseEvent, CtrlLabel.longPauseEvent]).start_in_flight
       = true ∧
    (runCtrl [CtrlLabel.shortPauseEvent, CtrlLabel.longPauseEvent]).commit_in_flight
       = true := by
  decide
